import Mathlib

/-!
Verification of the travel-planner repository's extraction and normalization
pipeline (`src/app.py`, `src/api/index.py`).

Python strings are modelled as `List Char`, Python JSON values (the results of
`json.loads` and the inputs flowing through the pipeline) as the inductive type
`JsonV`.  Machine-level floating point is not modelled: JSON numbers that are
not integers are carried as their literal text (`JsonV.jfloat`), which is enough
for every claim under consideration, and the haversine travel-time estimate is
a parameter of the request-handler embedding.
-/

namespace TravelPlanner

set_option maxRecDepth 200000
set_option maxHeartbeats 4000000

/-- Convert a Lean string literal to the `List Char` representation used
throughout. -/
def s2l (s : String) : List Char := s.data

/-- A Python value as produced by `json.loads` (and flowing through the
pipeline): `None`, `bool`, `int`, `float` (kept as its decimal literal text),
`str`, `list`, `dict` (association list in insertion order). -/
inductive JsonV where
  | jnull
  | jbool (b : Bool)
  | jint (n : Int)
  | jfloat (lit : List Char)
  | jstr (s : List Char)
  | jarr (elems : List JsonV)
  | jobj (fields : List (List Char × JsonV))
deriving Inhabited

open JsonV

mutual

/-- Structural boolean equality on `JsonV` (Python `==` restricted to the
identical-type cases arising here). -/
def beqJ : JsonV → JsonV → Bool
  | jnull, jnull => true
  | jbool a, jbool b => a = b
  | jint a, jint b => a = b
  | jfloat a, jfloat b => a = b
  | jstr a, jstr b => a = b
  | jarr a, jarr b => beqJList a b
  | jobj a, jobj b => beqJFields a b
  | _, _ => false

/-- Elementwise equality of value lists. -/
def beqJList : List JsonV → List JsonV → Bool
  | [], [] => true
  | x :: xs, y :: ys => beqJ x y && beqJList xs ys
  | _, _ => false

/-- Memberwise equality of field lists. -/
def beqJFields : List (List Char × JsonV) → List (List Char × JsonV) → Bool
  | [], [] => true
  | (k1, v1) :: xs, (k2, v2) :: ys => k1 = k2 && beqJ v1 v2 && beqJFields xs ys
  | _, _ => false

end

instance : BEq JsonV := ⟨beqJ⟩

/-- Dictionary lookup (`d.get(k)` when the key is present). -/
def objLookup (fields : List (List Char × JsonV)) (k : List Char) : Option JsonV :=
  match fields with
  | [] => none
  | (k2, v) :: rest => if k2 = k then some v else objLookup rest k

/-- Dictionary insertion with Python `dict` semantics: an existing key keeps its
position and gets the new value, a new key is appended. -/
def objUpd (fields : List (List Char × JsonV)) (k : List Char) (v : JsonV) :
    List (List Char × JsonV) :=
  match fields with
  | [] => [(k, v)]
  | (k2, v2) :: rest =>
      if k2 = k then (k2, v) :: rest else (k2, v2) :: objUpd rest k v

/-- Whether a decimal float literal denotes zero (all mantissa digits `0`). -/
def litIsZero (lit : List Char) : Bool :=
  ((lit.takeWhile (fun c => c ≠ 'e' ∧ c ≠ 'E')).filter Char.isDigit).all (· = '0')

/-- Python truthiness (`bool(x)`) on the modelled values. -/
def pyTruthy : JsonV → Bool
  | jnull => false
  | jbool b => b
  | jint n => n ≠ 0
  | jfloat lit => ¬ litIsZero lit
  | jstr s => ¬ s.isEmpty
  | jarr xs => ¬ xs.isEmpty
  | jobj kvs => ¬ kvs.isEmpty

/-- Python `a or b` (returns `a` when truthy, else `b`). -/
def pyOr (a b : JsonV) : JsonV := if pyTruthy a then a else b

/-- Python `d.get(k)`: the stored value, or `None` when the key is absent. -/
def pyGet (d : JsonV) (k : List Char) : JsonV :=
  match d with
  | jobj kvs => (objLookup kvs k).getD jnull
  | _ => jnull

/-- Python `len(x)` for the sized values; `none` models a `TypeError`. -/
def pyLen : JsonV → Option Nat
  | jstr s => some s.length
  | jarr xs => some xs.length
  | jobj kvs => some kvs.length
  | _ => none

/-- Whether the value is a `dict`. -/
def isDict : JsonV → Bool
  | jobj _ => true
  | _ => false

/-- Whether the value is a `list`. -/
def isListV : JsonV → Bool
  | jarr _ => true
  | _ => false

/-- Whether the value is a `str`. -/
def isStrV : JsonV → Bool
  | jstr _ => true
  | _ => false

/-! ### Character classes and basic string helpers -/

/-- The whitespace class used by Python's `str.strip` and by the regex `\s`
(restricted to its ASCII members, the only ones arising here). -/
def isPyWs (c : Char) : Bool :=
  c = ' ' ∨ c = '\t' ∨ c = '\n' ∨ c = '\r' ∨ c = Char.ofNat 11 ∨ c = Char.ofNat 12

/-- JSON's own whitespace class (RFC 8259, as used by `json.loads`). -/
def isJsonWs (c : Char) : Bool :=
  c = ' ' ∨ c = '\t' ∨ c = '\n' ∨ c = '\r'

/-- Python `s.strip()`: drop whitespace from both ends. -/
def pyStrip (l : List Char) : List Char :=
  ((l.dropWhile isPyWs).reverse.dropWhile isPyWs).reverse

/-- Decimal digit run to a natural number. -/
def digitsToNat (ds : List Char) : Nat :=
  ds.foldl (fun acc c => acc * 10 + (c.toNat - '0'.toNat)) 0

/-- Case-insensitive character comparison (ASCII letters). -/
def charCI (a b : Char) : Bool := a.toLower = b.toLower

/-- Case-insensitive prefix test for the literal parts of `re.I` patterns. -/
def isPrefixOfCI : List Char → List Char → Bool
  | [], _ => true
  | _ :: _, [] => false
  | p :: ps, c :: cs => charCI p c && isPrefixOfCI ps cs

/-! ### The model of `json.loads`

A recursive-descent parser over `List Char`, total via a fuel argument.  It
follows Python's `json` module: RFC 8259 grammar, strict control-character
rejection inside strings, `\uXXXX` escapes with surrogate-pair combination
(lone surrogates, unrepresentable in `Char`, become U+FFFD), numbers with no
leading zeros, duplicate object keys keep the first position and the last
value. -/

/-- Hexadecimal digit value. -/
def hexDigit (c : Char) : Option Nat :=
  if '0' ≤ c ∧ c ≤ '9' then some (c.toNat - '0'.toNat)
  else if 'a' ≤ c ∧ c ≤ 'f' then some (c.toNat - 'a'.toNat + 10)
  else if 'A' ≤ c ∧ c ≤ 'F' then some (c.toNat - 'A'.toNat + 10)
  else none

/-- Four hex digits to a code point. -/
def hex4 (a b c d : Char) : Option Nat := do
  let va ← hexDigit a
  let vb ← hexDigit b
  let vc ← hexDigit c
  let vd ← hexDigit d
  return ((va * 16 + vb) * 16 + vc) * 16 + vd

/-- A code point as a `Char`, with lone surrogates mapped to U+FFFD (they are
valid in Python strings but not representable as `Char`). -/
def codeToChar (n : Nat) : Char :=
  if 0xD800 ≤ n ∧ n < 0xE000 then Char.ofNat 0xFFFD else Char.ofNat n

/-- Parse the body of a JSON string after the opening quote.  The fuel is
threaded down from the value parser (always ample, since every step consumes
input). -/
def parseJStr : Nat → List Char → List Char → Option (List Char × List Char)
  | 0, _, _ => none
  | _ + 1, acc, '"' :: rest => some (acc.reverse, rest)
  | fuel + 1, acc, '\\' :: 'u' :: a :: b :: c :: d :: rest =>
      (match hex4 a b c d with
        | none => none
        | some n =>
            if 0xD800 ≤ n ∧ n < 0xDC00 then
              match rest with
              | '\\' :: 'u' :: a2 :: b2 :: c2 :: d2 :: rest2 =>
                  (match hex4 a2 b2 c2 d2 with
                    | some m =>
                        if 0xDC00 ≤ m ∧ m < 0xE000 then
                          parseJStr fuel
                            (Char.ofNat (0x10000 + (n - 0xD800) * 0x400 + (m - 0xDC00)) :: acc)
                            rest2
                        else parseJStr fuel (codeToChar n :: acc) rest
                    | none => parseJStr fuel (codeToChar n :: acc) rest)
              | _ => parseJStr fuel (codeToChar n :: acc) rest
            else parseJStr fuel (codeToChar n :: acc) rest)
  | fuel + 1, acc, '\\' :: e :: rest =>
      (match
        (match e with
          | '"' => some '"'
          | '\\' => some '\\'
          | '/' => some '/'
          | 'b' => some (Char.ofNat 8)
          | 'f' => some (Char.ofNat 12)
          | 'n' => some '\n'
          | 'r' => some '\r'
          | 't' => some '\t'
          | _ => none)
      with
      | some ch => parseJStr fuel (ch :: acc) rest
      | none => none)
  | fuel + 1, acc, c :: rest =>
      if c.toNat < 0x20 then none else parseJStr fuel (c :: acc) rest
  | _ + 1, _, [] => none

/-- Parse a JSON number: sign, integer part without leading zeros, optional
fraction and exponent.  Pure-integer literals become `jint`, the rest keep
their literal text as `jfloat`. -/
def parseJNum (l : List Char) : Option (JsonV × List Char) :=
  let (sign, l1) := match l with
    | '-' :: r => (([ '-' ] : List Char), r)
    | _ => (([] : List Char), l)
  match l1 with
  | '0' :: r =>
      parseJNumTail sign ['0'] r
  | c :: _ =>
      if c.isDigit then
        let ds := l1.takeWhile Char.isDigit
        parseJNumTail sign ds (l1.dropWhile Char.isDigit)
      else none
  | [] => none
where
  /-- After the integer digits: optional `.digits` and exponent. -/
  parseJNumTail (sign intDs : List Char) (r : List Char) : Option (JsonV × List Char) :=
    let (fracDs, r2) := match r with
      | '.' :: r1 =>
          let ds := r1.takeWhile Char.isDigit
          if ds.isEmpty then (none, r) else (some ('.' :: ds), r1.dropWhile Char.isDigit)
      | _ => (none, r)
    let (expDs, r3) := match r2 with
      | e :: rest =>
          if e = 'e' ∨ e = 'E' then
            let (sgn, rest2) := match rest with
              | '+' :: rr => (['+'], rr)
              | '-' :: rr => (['-'], rr)
              | _ => (([] : List Char), rest)
            let ds := rest2.takeWhile Char.isDigit
            if ds.isEmpty then (none, r2) else (some (e :: (sgn ++ ds)), rest2.dropWhile Char.isDigit)
          else (none, r2)
      | [] => (none, r2)
    match fracDs, expDs with
    | none, none =>
        let v : Int := Int.ofNat (digitsToNat intDs)
        some (jint (if sign.isEmpty then v else -v), r3)
    | f, e =>
        some (jfloat (sign ++ intDs ++ (f.getD []) ++ (e.getD [])), r3)

mutual

/-- Parse one JSON value (leading whitespace allowed). -/
def parseJVal : Nat → List Char → Option (JsonV × List Char)
  | 0, _ => none
  | fuel + 1, l =>
      match l.dropWhile isJsonWs with
      | 'n' :: 'u' :: 'l' :: 'l' :: r => some (jnull, r)
      | 't' :: 'r' :: 'u' :: 'e' :: r => some (jbool true, r)
      | 'f' :: 'a' :: 'l' :: 's' :: 'e' :: r => some (jbool false, r)
      | '"' :: r => (parseJStr (fuel + 1) [] r).map (fun p => (jstr p.1, p.2))
      | '[' :: r =>
          (match r.dropWhile isJsonWs with
            | ']' :: r2 => some (jarr [], r2)
            | r2 => parseJArr fuel r2 [])
      | '{' :: r =>
          (match r.dropWhile isJsonWs with
            | '}' :: r2 => some (jobj [], r2)
            | r2 => parseJObj fuel r2 [])
      | l2 => parseJNum l2

/-- Parse the elements of a non-empty array, after `[`. -/
def parseJArr : Nat → List Char → List JsonV → Option (JsonV × List Char)
  | 0, _, _ => none
  | fuel + 1, l, acc =>
      match parseJVal fuel l with
      | none => none
      | some (v, r) =>
          match r.dropWhile isJsonWs with
          | ',' :: r2 => parseJArr fuel r2 (acc ++ [v])
          | ']' :: r2 => some (jarr (acc ++ [v]), r2)
          | _ => none

/-- Parse the members of a non-empty object, after `{`. -/
def parseJObj : Nat → List Char → List (List Char × JsonV) →
    Option (JsonV × List Char)
  | 0, _, _ => none
  | fuel + 1, l, acc =>
      match l.dropWhile isJsonWs with
      | '"' :: r =>
          (match parseJStr (fuel + 1) [] r with
            | none => none
            | some (k, r1) =>
                match r1.dropWhile isJsonWs with
                | ':' :: r2 =>
                    (match parseJVal fuel r2 with
                      | none => none
                      | some (v, r3) =>
                          match r3.dropWhile isJsonWs with
                          | ',' :: r4 => parseJObj fuel r4 (objUpd acc k v)
                          | '}' :: r4 => some (jobj (objUpd acc k v), r4)
                          | _ => none)
                | _ => none)
      | _ => none

end

/-- The model of `json.loads`: parse one value and require only whitespace
afterwards; `none` models a raised `JSONDecodeError`. -/
def json_loads (l : List Char) : Option JsonV :=
  match parseJVal (2 * l.length + 8) l with
  | some (v, r) => if (r.dropWhile isJsonWs).isEmpty then some v else none
  | none => none

/-! ### `strip_code_fences` (src/app.py lines 54-60)

The regex is `^```(?:json)?\s*(.*)\s*```$` with `re.S | re.I` under `re.search`.
Since `^`/`$` anchor both ends (`$` also matches just before one final
newline) and `(.*)` is greedy under `re.S`, the pattern matches exactly when
the text starts with a fence (optionally tagged `json`, case-insensitively)
and ends with ```` ``` ```` or ```` ```\n ````; the group is everything in
between less the whitespace taken by the first `\s*`, which the subsequent
`.strip()` makes irrelevant. -/

/-- The closing-fence step: the possible trailing ```` ``` ```` or
```` ```\n ````, and the stripped group before it. -/
def fenceClose (r1 : List Char) : Option (List Char) :=
  if (s2l "```").isSuffixOf r1 then some (pyStrip (r1.take (r1.length - 3)))
  else if (s2l "```" ++ ['\n']).isSuffixOf r1 then some (pyStrip (r1.take (r1.length - 4)))
  else none

/-- The fence-matching step: the stripped group when the regex matches. -/
def fenceGroup (t : List Char) : Option (List Char) :=
  if (s2l "```").isPrefixOf t then
    let r := t.drop 3
    fenceClose (if isPrefixOfCI (s2l "json") r then r.drop 4 else r)
  else none

/-- `strip_code_fences` on the string payload. -/
def fenceStrip (t : List Char) : List Char :=
  match fenceGroup t with
  | some g => g
  | none => t

/-- `strip_code_fences`: non-`str` input is returned unchanged. -/
def strip_code_fences : JsonV → JsonV
  | jstr s => jstr (fenceStrip s)
  | v => v

/-! ### `extract_json_from_text` (src/app.py lines 104-156) -/

/-- The marker strings of the prompt protocol. -/
def SMl : List Char := s2l "===JSON_START==="

/-- The end marker. -/
def EMl : List Char := s2l "===JSON_END==="

/-- The lazy part `(\{.*?\})\s*===JSON_END===` after the opening `{`: the
index of the first `}` that is followed, after whitespace, by the end marker
(`\s*` is effectively possessive here because `=` is not whitespace). -/
def candAux : List Char → Nat → Option Nat
  | [], _ => none
  | c :: cs, k =>
      if c = '}' ∧ EMl.isPrefixOf (cs.dropWhile isPyWs) then some k
      else candAux cs (k + 1)

/-- The candidate group at a viable start: the text up to and including that
`}`. -/
def candSearch (l : List Char) : Option (List Char) :=
  (candAux l 0).map (fun k => l.take (k + 1))

/-- Whether a stretch of text contains no viable stopping position for the
lazy group: no `}` in it is followed, after the whitespace run, by the end
marker (the remainder of the scanned text is `rest`). -/
def noStopB : List Char → List Char → Bool
  | [], _ => true
  | c :: cs, rest =>
      (if c = '}' then ! EMl.isPrefixOf ((cs ++ rest).dropWhile isPyWs) else true) &&
        noStopB cs rest

/-- One start position of the marker pattern: the start marker, greedy
whitespace, an opening brace, and the lazy group search. -/
def markerTryAt (t : List Char) : Option (List Char) :=
  if SMl.isPrefixOf t then
    match (t.drop 16).dropWhile isPyWs with
    | '{' :: _ => candSearch ((t.drop 16).dropWhile isPyWs)
    | _ => none
  else none

/-- `re.search` for `===JSON_START===\s*(\{.*?\})\s*===JSON_END===` under
`re.S`: scan start positions left to right and return the group of the first
position where the whole pattern matches. -/
def markerFind : List Char → Option (List Char)
  | [] => none
  | t@(_ :: rest) =>
      match markerTryAt t with
      | some cand => some cand
      | none => markerFind rest

/-- The brace-balancing scan of lines 134-145: from a `{`, the index of the
`}` at which the count of open braces returns to zero (string literals are
not understood, exactly as in the source). -/
def balAux : List Char → Nat → Nat → Option Nat
  | [], _, _ => none
  | c :: cs, i, d =>
      if c = '{' then balAux cs (i + 1) (d + 1)
      else if c = '}' then (if d ≤ 1 then some i else balAux cs (i + 1) (d - 1))
      else balAux cs (i + 1) d

/-! #### The unescape retry

`candidate.encode("utf-8").decode("unicode_escape")` re-reads the UTF-8 bytes
as Latin-1 while interpreting backslash escape sequences; failure (a malformed
`\x`/`\u`/`\U` or a trailing backslash) is modelled as `none`.  `\N{...}`
named escapes are modelled as failing, and code points that are lone
surrogates (valid in Python, unrepresentable in `Char`) become U+FFFD. -/

/-- UTF-8 bytes of one character. -/
def utf8Bytes (c : Char) : List Nat :=
  let n := c.toNat
  if n < 0x80 then [n]
  else if n < 0x800 then [0xC0 + n / 0x40, 0x80 + n % 0x40]
  else if n < 0x10000 then
    [0xE0 + n / 0x1000, 0x80 + (n / 0x40) % 0x40, 0x80 + n % 0x40]
  else
    [0xF0 + n / 0x40000, 0x80 + (n / 0x1000) % 0x40, 0x80 + (n / 0x40) % 0x40,
      0x80 + n % 0x40]

/-- UTF-8 encoding of the whole string. -/
def utf8Encode (l : List Char) : List Nat := (l.map utf8Bytes).flatten

/-- Whether a byte is an ASCII octal digit. -/
def isOctal (b : Nat) : Bool := 0x30 ≤ b ∧ b ≤ 0x37

/-- Hex value of a byte, if it is an ASCII hex digit. -/
def hexByte (b : Nat) : Option Nat := hexDigit (Char.ofNat b)

/-- Read exactly `n` hex digits. -/
def readHex : Nat → List Nat → Nat → Option (Nat × List Nat)
  | 0, l, acc => some (acc, l)
  | n + 1, b :: rest, acc =>
      match hexByte b with
      | some v => readHex n rest (acc * 16 + v)
      | none => none
  | _ + 1, [], _ => none

/-- The `unicode_escape` codec over a byte list. -/
def uEsc : Nat → List Nat → Option (List Char)
  | 0, _ => none
  | _ + 1, [] => some []
  | fuel + 1, 0x5C :: rest =>
      match rest with
      | [] => none
      | e :: rest2 =>
          if isOctal e then
            let more := (rest2.takeWhile isOctal).take 2
            let rest3 := rest2.drop more.length
            let v := (e :: more).foldl (fun acc b => acc * 8 + (b - 0x30)) 0
            (uEsc fuel rest3).map (fun tl => Char.ofNat v :: tl)
          else if e = 0x78 then
            match readHex 2 rest2 0 with
            | some (v, rest3) => (uEsc fuel rest3).map (fun tl => Char.ofNat v :: tl)
            | none => none
          else if e = 0x75 then
            match readHex 4 rest2 0 with
            | some (v, rest3) => (uEsc fuel rest3).map (fun tl => codeToChar v :: tl)
            | none => none
          else if e = 0x55 then
            match readHex 8 rest2 0 with
            | some (v, rest3) =>
                if v ≤ 0x10FFFF then
                  (uEsc fuel rest3).map (fun tl => codeToChar v :: tl)
                else none
            | none => none
          else if e = 0x4E then none
          else if e = 0x0A then uEsc fuel rest2
          else
            match
              (match e with
                | 0x5C => some (Char.ofNat 0x5C)
                | 0x27 => some (Char.ofNat 0x27)
                | 0x22 => some (Char.ofNat 0x22)
                | 0x61 => some (Char.ofNat 7)
                | 0x62 => some (Char.ofNat 8)
                | 0x66 => some (Char.ofNat 12)
                | 0x6E => some '\n'
                | 0x72 => some '\r'
                | 0x74 => some '\t'
                | 0x76 => some (Char.ofNat 11)
                | _ => none)
            with
            | some ch => (uEsc fuel rest2).map (fun tl => ch :: tl)
            | none => (uEsc fuel rest2).map (fun tl => Char.ofNat 0x5C :: Char.ofNat e :: tl)
  | fuel + 1, b :: rest => (uEsc fuel rest).map (fun tl => Char.ofNat b :: tl)

/-- The full retry transform `candidate.encode("utf-8").decode("unicode_escape")`. -/
def pyUnicodeEscape (l : List Char) : Option (List Char) :=
  uEsc ((utf8Encode l).length + 1) (utf8Encode l)

/-- Parse a candidate: `json.loads`, and on failure the unescape retry. -/
def tryParseCand (cand : List Char) : Option JsonV :=
  match json_loads cand with
  | some v => some v
  | none =>
      match pyUnicodeEscape cand with
      | some cleaned => json_loads cleaned
      | none => none

/-- The brace-scan half of `extract_json_from_text` (lines 129-156). -/
def braceScanPart (t : List Char) : Option JsonV :=
  match t.findIdx? (· = '{') with
  | none => none
  | some first =>
      match balAux (t.drop first) 0 0 with
      | none => none
      | some endRel => tryParseCand ((t.drop first).take (endRel + 1))

/-- `extract_json_from_text`: fence strip and trim, marker search with parse
and unescape retry, then the balanced-brace scan with the same retry.  The
input is always a `str` at the call sites modelled here; the empty string is
the falsy case of the `if not text` guard. -/
def extract_json_from_text (t : List Char) : Option JsonV :=
  if t.isEmpty then none
  else
    match markerFind (pyStrip (fenceStrip t)) with
    | some cand =>
        (match tryParseCand cand with
          | some v => some v
          | none => braceScanPart (pyStrip (fenceStrip t)))
    | none => braceScanPart (pyStrip (fenceStrip t))

/-! ### Python conversions `int(x)` and `str(x)` -/

/-- Truncation toward zero of a decimal float literal (`int(float(lit))`,
modelled on the exact decimal value; the double-rounding of binary floats on
extreme literals is outside the model). -/
def floatTruncInt (lit : List Char) : Option Int :=
  let (neg, l1) := match lit with
    | '-' :: r => (true, r)
    | '+' :: r => (false, r)
    | _ => (false, lit)
  let intDs := l1.takeWhile Char.isDigit
  let r1 := l1.dropWhile Char.isDigit
  let (fracDs, r2) := match r1 with
    | '.' :: rr => (rr.takeWhile Char.isDigit, rr.dropWhile Char.isDigit)
    | _ => ([], r1)
  let expV : Int := match r2 with
    | e :: rr =>
        if e = 'e' ∨ e = 'E' then
          match rr with
          | '-' :: ds => -(digitsToNat (ds.takeWhile Char.isDigit) : Int)
          | '+' :: ds => (digitsToNat (ds.takeWhile Char.isDigit) : Int)
          | ds => (digitsToNat (ds.takeWhile Char.isDigit) : Int)
        else 0
    | [] => 0
  if intDs.isEmpty ∧ fracDs.isEmpty then none
  else
    let pp : Int := intDs.length + expV
    if pp ≤ 0 then some 0
    else
      let ppn := pp.toNat
      let all := intDs ++ fracDs
      let padded := all ++ List.replicate (ppn - all.length) '0'
      let v : Int := digitsToNat (padded.take ppn)
      some (if neg then -v else v)

/-- `int(s)` on a string: optional surrounding whitespace and sign, then
digits (digit-group underscores are outside the model); `none` models a
`ValueError`. -/
def intOfPyStr (s : List Char) : Option Int :=
  let t := pyStrip s
  let (neg, t2) := match t with
    | '-' :: r => (true, r)
    | '+' :: r => (false, r)
    | _ => (false, t)
  if t2.isEmpty ∨ ¬ t2.all Char.isDigit then none
  else some (if neg then -(digitsToNat t2 : Int) else (digitsToNat t2 : Int))

/-- Python `int(x)`; `none` models a raised `TypeError`/`ValueError`. -/
def pyToInt : JsonV → Option Int
  | jint n => some n
  | jbool b => some (if b then 1 else 0)
  | jfloat lit => floatTruncInt lit
  | jstr s => intOfPyStr s
  | _ => none

mutual

/-- Python `repr(x)` on the modelled values (string escaping inside `repr` is
simplified to plain quoting, which covers every value arising here). -/
def pyRepr : JsonV → List Char
  | jnull => s2l "None"
  | jbool b => if b then s2l "True" else s2l "False"
  | jint n => s2l (toString n)
  | jfloat l => l
  | jstr s => Char.ofNat 39 :: s ++ [Char.ofNat 39]
  | jarr xs => '[' :: pyReprArr xs ++ [']']
  | jobj kvs => s2l "\x7b" ++ pyReprFields kvs ++ s2l "\x7d"

/-- Comma-separated element reprs. -/
def pyReprArr : List JsonV → List Char
  | [] => []
  | [x] => pyRepr x
  | x :: xs => pyRepr x ++ s2l ", " ++ pyReprArr xs

/-- Comma-separated `key: value` reprs. -/
def pyReprFields : List (List Char × JsonV) → List Char
  | [] => []
  | [(k, v)] => pyRepr (jstr k) ++ s2l ": " ++ pyRepr v
  | (k, v) :: kvs => pyRepr (jstr k) ++ s2l ": " ++ pyRepr v ++ s2l ", " ++ pyReprFields kvs

end

/-- Python `str(x)`. -/
def pyStr : JsonV → List Char
  | jstr s => s
  | v => pyRepr v

/-- Python `str(x).isdigit()` for the ASCII digits arising here. -/
def pyIsDigit (s : List Char) : Bool := ¬ s.isEmpty ∧ s.all Char.isDigit

/-! ### `normalize_visit_sequence` (src/app.py lines 158-216) -/

/-- Leftmost match of `order\s*[:=]\s*(\d+)` under `re.I`, as the captured
number.  `\s*` and `\d+` are deterministic here because neither `:`/`=` nor a
digit is whitespace. -/
def orderMatchAt (t : List Char) : Option Nat :=
  if isPrefixOfCI (s2l "order") t then
    match (t.drop 5).dropWhile isPyWs with
    | c :: r2 =>
        if c = ':' ∨ c = '=' then
          let ds := (r2.dropWhile isPyWs).takeWhile Char.isDigit
          if ds.isEmpty then none else some (digitsToNat ds)
        else none
    | [] => none
  else none

/-- Scan for the leftmost position where the `order` pattern matches. -/
def orderSearch : List Char → Option Nat
  | [] => none
  | t@(_ :: rest) =>
      match orderMatchAt t with
      | some n => some n
      | none => orderSearch rest

/-- Whether a character is one of the quote characters of the
`location_name` pattern. -/
def isQuoteCh (c : Char) : Bool := c = '"' ∨ c = Char.ofNat 39

/-- Whether a character is allowed inside the `([^,"\']+)` group. -/
def inLocClass (c : Char) : Bool := ¬ (c = ',' ∨ isQuoteCh c)

/-- One-position match of `location_name\s*[:=]\s*["\']?([^,"\']+)["\']?`
under `re.I`.  Backtracking matters here: when the group is empty after the
greedy `\s*` and optional quote, the regex gives back one whitespace
character, which then forms a one-character group (whitespace is in the
class), so the captured text strips to the empty string. -/
def locMatchAt (t : List Char) : Option (List Char) :=
  if isPrefixOfCI (s2l "location_name") t then
    match (t.drop 13).dropWhile isPyWs with
    | c :: r2 =>
        if c = ':' ∨ c = '=' then
          let wRun := r2.takeWhile isPyWs
          let r3 := r2.dropWhile isPyWs
          let afterQ := match r3 with
            | q :: rq => if isQuoteCh q then rq else r3
            | [] => r3
          let grp := afterQ.takeWhile inLocClass
          if ¬ grp.isEmpty then some grp
          else
            match wRun.getLast? with
            | some wc => some [wc]
            | none => none
        else none
    | [] => none
  else none

/-- Scan for the leftmost `location_name` match. -/
def locSearch : List Char → Option (List Char)
  | [] => none
  | t@(_ :: rest) =>
      match locMatchAt t with
      | some g => some g
      | none => locSearch rest

/-- The per-element branch of the normalizer loop (lines 185-215). -/
def normItem : JsonV → List JsonV
  | jobj kvs => [jobj kvs]
  | jarr xs => xs.filter isDict
  | jstr s =>
      let parsed : Option JsonV :=
        match json_loads s with
        | some p => some p
        | none => extract_json_from_text s
      (match parsed with
        | some (jobj kvs) => [jobj kvs]
        | some (jarr xs) => xs.filter isDict
        | _ =>
            let kv1 : List (List Char × JsonV) :=
              match orderSearch s with
              | some n => [(s2l "order", jint (Int.ofNat n))]
              | none => []
            let kv2 :=
              match locSearch s with
              | some g => kv1 ++ [(s2l "location_name", jstr (pyStrip g))]
              | none => kv1
            if kv2.isEmpty then [] else [jobj kv2])
  | _ => []

/-- The string branch of the normalizer (lines 166-177): direct parse, then
the JSON locator with the `visit_sequence` lookup. -/
def normStr (s : List Char) : JsonV :=
  match json_loads s with
  | some p => p
  | none =>
      match extract_json_from_text s with
      | some (jobj kvs) =>
          if (objLookup kvs (s2l "visit_sequence")).isSome then
            pyOr (pyGet (jobj kvs) (s2l "visit_sequence")) (jarr [])
          else jarr []
      | some (jarr xs) => jarr xs
      | _ => jarr []

/-- The mapping branch of the normalizer (lines 179-180): `visit_sequence`
or `visits`, else the empty list. -/
def normDict : JsonV → JsonV
  | jobj kvs =>
      pyOr (pyGet (jobj kvs) (s2l "visit_sequence"))
        (pyOr (pyGet (jobj kvs) (s2l "visits")) (jarr []))
  | r => r

/-- `normalize_visit_sequence`: the falsy guard, the string branch (direct
parse, then the JSON locator), the mapping branch (`visit_sequence` or
`visits`), then the per-element loop. -/
def normalize_visit_sequence (raw0 : JsonV) : List JsonV :=
  if ¬ pyTruthy raw0 then []
  else
    match normDict (match raw0 with | jstr s => normStr s | r => r) with
    | jarr items => (items.map normItem).flatten
    | _ => []

/-- `safe_load_json_like` (src/app.py lines 218-228). -/
def safe_load_json_like : JsonV → JsonV
  | jnull => jarr []
  | jarr xs => jarr xs
  | jobj kvs => jobj kvs
  | jstr s =>
      (match json_loads s with
        | some v => v
        | none =>
            match extract_json_from_text s with
            | some v => pyOr v (jarr [])
            | none => jarr [])
  | _ => jarr []

/-! ### The final sort and the grid layout (src/app.py lines 410-458) -/

/-- The sort key `int(x.get("order", 0))`; `none` models the raised exception
(non-mapping element or unconvertible value). -/
def visitSortKey : JsonV → Option Int
  | jobj kvs => pyToInt ((objLookup kvs (s2l "order")).getD (jint 0))
  | _ => none

/-- Stable insertion of a keyed element into a sorted list. -/
def insPair (p : Int × JsonV) : List (Int × JsonV) → List (Int × JsonV)
  | [] => [p]
  | q :: qs => if p.1 ≤ q.1 then p :: q :: qs else q :: insPair p qs

/-- Stable insertion sort on keyed elements; agrees with Python's stable
`sorted` for the total order on integer keys. -/
def insSortPairs : List (Int × JsonV) → List (Int × JsonV)
  | [] => []
  | p :: ps => insPair p (insSortPairs ps)

/-- Lines 410-414: `sorted(visit_sequence, key=lambda x: int(x.get("order",
0)))` inside `try`, with the list left unchanged when any key raises. -/
def sortVisitsPy (vs : List JsonV) : List JsonV :=
  match vs.mapM (fun v => (visitSortKey v).map (fun k => (k, v))) with
  | some pairs => (insSortPairs pairs).map Prod.snd
  | none => vs

/-- A rendered visit node (the dict appended to `node_positions`). -/
structure NodeV where
  order : Int
  location_name : JsonV
  suggested_time : JsonV
  estimated_duration : JsonV
  note : JsonV
  latitude : JsonV
  longitude : JsonV
  nearby_food_recommendations : JsonV
  x : Nat
  y : Nat

/-- Grid columns: `min(n_nodes, max_cols)` with `n_nodes = max(1,
len(visit_sequence))`. -/
def layoutCols (nVisits maxCols : Nat) : Nat := min (max 1 nVisits) maxCols

/-- Grid rows `ceil(n_nodes / cols)`; `none` models the `ZeroDivisionError`
when the configured column count is zero. -/
def layoutRows (nNodes cols : Nat) : Option Nat :=
  if cols = 0 then none else some ((nNodes + cols - 1) / cols)

/-- The node-building loop of lines 429-458 (`enumerate` index advances on
skipped non-dict entries too); `int(v.get("order", idx + 1))` raises on an
unconvertible `order`, modelled as `.error`. -/
def buildNodesGo (cols colStep : Nat) : Nat → List JsonV → Except (List Char) (List NodeV)
  | _, [] => .ok []
  | idx, jobj kvs :: rest =>
      (match pyToInt ((objLookup kvs (s2l "order")).getD (jint (Int.ofNat (idx + 1)))) with
            | none => .error (s2l "ValueError: invalid order value")
            | some ord =>
                match buildNodesGo cols colStep (idx + 1) rest with
                | .error e => .error e
                | .ok ns =>
                    let col := idx % cols
                    let row := idx / cols
                    .ok
                      ({ order := ord
                         location_name :=
                           pyOr (pyGet (jobj kvs) (s2l "location_name"))
                             (pyOr (pyGet (jobj kvs) (s2l "name"))
                               (jstr (s2l "Place " ++ s2l (toString (idx + 1)))))
                         suggested_time := (objLookup kvs (s2l "suggested_time")).getD (jstr [])
                         estimated_duration := (objLookup kvs (s2l "estimated_duration")).getD (jstr [])
                         note := (objLookup kvs (s2l "note")).getD (jstr [])
                         latitude := pyGet (jobj kvs) (s2l "latitude")
                         longitude := pyGet (jobj kvs) (s2l "longitude")
                         nearby_food_recommendations :=
                           pyOr (pyGet (jobj kvs) (s2l "nearby_food_recommendations")) (jarr [])
                         x := if 1 < cols then 80 + col * colStep else 700
                         y := 40 + row * 160 + row * 6 } :: ns))
  | idx, _ :: rest => buildNodesGo cols colStep (idx + 1) rest

/-- The whole layout step: columns, rows, column step
(`usable_width // max(1, cols - 1)` with `usable_width = 1400 - 2 * 80`), and
the node list. -/
def buildNodes (maxCols : Nat) (vs : List JsonV) :
    Except (List Char) (Nat × Nat × List NodeV) :=
  match layoutRows (max 1 vs.length) (layoutCols vs.length maxCols) with
  | none => .error (s2l "ZeroDivisionError: integer division or modulo by zero")
  | some rows =>
      (buildNodesGo (layoutCols vs.length maxCols)
          (if 1 < layoutCols vs.length maxCols then
            1240 / max 1 (layoutCols vs.length maxCols - 1) else 0) 0 vs).map
        (fun ns => (layoutCols vs.length maxCols, rows, ns))

/-! ### `json.dumps(data, indent=2)` -/

/-- Lowercase hex digit. -/
def hexCharL (n : Nat) : Char :=
  if n < 10 then Char.ofNat (48 + n) else Char.ofNat (87 + n)

/-- Four lowercase hex digits. -/
def toHex4 (n : Nat) : List Char :=
  [hexCharL (n / 4096 % 16), hexCharL (n / 256 % 16), hexCharL (n / 16 % 16),
    hexCharL (n % 16)]

/-- One character under `json.dumps` escaping (`ensure_ascii=True`). -/
def escCharJ (c : Char) : List Char :=
  if c = '"' then ['\\', '"']
  else if c = '\\' then ['\\', '\\']
  else if c = '\n' then ['\\', 'n']
  else if c = '\r' then ['\\', 'r']
  else if c = '\t' then ['\\', 't']
  else if c = Char.ofNat 8 then ['\\', 'b']
  else if c = Char.ofNat 12 then ['\\', 'f']
  else if c.toNat < 0x20 then '\\' :: 'u' :: toHex4 c.toNat
  else if c.toNat < 0x7F then [c]
  else if c.toNat < 0x10000 then '\\' :: 'u' :: toHex4 c.toNat
  else
    '\\' :: 'u' :: toHex4 (0xD800 + (c.toNat - 0x10000) / 0x400) ++
      '\\' :: 'u' :: toHex4 (0xDC00 + (c.toNat - 0x10000) % 0x400)

/-- A JSON string literal under dumps escaping. -/
def dumpStr (s : List Char) : List Char := '"' :: (s.map escCharJ).flatten ++ ['"']

/-- Indentation of `2 * lvl` spaces. -/
def ind (lvl : Nat) : List Char := List.replicate (2 * lvl) ' '

mutual

/-- `json.dumps(v, indent=2)` at a nesting level. -/
def dumpJ : Nat → JsonV → List Char
  | _, jnull => s2l "null"
  | _, jbool b => if b then s2l "true" else s2l "false"
  | _, jint n => s2l (toString n)
  | _, jfloat l => l
  | _, jstr s => dumpStr s
  | _, jarr [] => s2l "[]"
  | lvl, jarr (x :: xs) =>
      s2l "[\n" ++ ind (lvl + 1) ++ dumpJ (lvl + 1) x ++ dumpArr (lvl + 1) xs ++
        '\n' :: ind lvl ++ s2l "]"
  | _, jobj [] => s2l "\x7b\x7d"
  | lvl, jobj ((k, v) :: kvs) =>
      s2l "\x7b\n" ++ ind (lvl + 1) ++ dumpStr k ++ s2l ": " ++ dumpJ (lvl + 1) v ++
        dumpObj (lvl + 1) kvs ++ '\n' :: ind lvl ++ s2l "\x7d"

/-- Remaining array items. -/
def dumpArr : Nat → List JsonV → List Char
  | _, [] => []
  | lvl, x :: xs => ',' :: '\n' :: ind lvl ++ dumpJ lvl x ++ dumpArr lvl xs

/-- Remaining object members. -/
def dumpObj : Nat → List (List Char × JsonV) → List Char
  | _, [] => []
  | lvl, (k, v) :: kvs =>
      ',' :: '\n' :: ind lvl ++ dumpStr k ++ s2l ": " ++ dumpJ lvl v ++ dumpObj lvl kvs

end

/-- `json.dumps(data, indent=2)` (always succeeds on modelled values, so the
`except` fallback to `str(data)` at line 102 is unreachable). -/
def jsonDumps (v : JsonV) : List Char := dumpJ 0 v

/-! ### `extract_text_from_api_response` (src/app.py lines 62-102) -/

/-- One step of a field path: an integer index or a string key. -/
inductive PathStep where
  | idx (n : Nat)
  | key (k : List Char)
deriving Repr, DecidableEq

/-- One step of the lookup loop.  Integer steps model `cur[p]`: list
indexing, single-character string indexing, and the `KeyError`/`TypeError`
cases as failure.  Key steps model `cur.get(p) if isinstance(cur, dict) else
None` followed by the `is None` break. -/
def stepGet (cur : JsonV) : PathStep → Option JsonV
  | .idx n =>
      match cur with
      | jarr xs => xs.get? n
      | jstr s => (s.get? n).map (fun c => jstr [c])
      | _ => none
  | .key k =>
      match cur with
      | jobj kvs =>
          (match objLookup kvs k with
            | some jnull => none
            | some v => some v
            | none => none)
      | _ => none

/-- The loop over one path, aborting on the first failed step. -/
def runPath (cur : JsonV) : List PathStep → Option JsonV
  | [] => some cur
  | p :: ps =>
      match stepGet cur p with
      | some nxt => runPath nxt ps
      | none => none

/-- The ordered field paths of the `checks` table (lines 71-79). -/
def checksList : List (List PathStep) :=
  [[.key (s2l "candidates"), .idx 0, .key (s2l "content"), .key (s2l "parts"), .idx 0,
      .key (s2l "text")],
    [.key (s2l "candidates"), .idx 0, .key (s2l "content"), .idx 0, .key (s2l "text")],
    [.key (s2l "candidates"), .idx 0, .key (s2l "text")],
    [.key (s2l "outputs"), .idx 0, .key (s2l "content"), .idx 0, .key (s2l "text")],
    [.key (s2l "outputs"), .idx 0, .key (s2l "text")],
    [.key (s2l "response"), .key (s2l "text")],
    [.key (s2l "text")]]

/-- The `for path in checks` loop: the first path whose value is a string
with non-whitespace content. -/
def firstPathHit (data : JsonV) : List (List PathStep) → Option (List Char)
  | [] => none
  | p :: rest =>
      match runPath data p with
      | some (jstr s) => if (pyStrip s).isEmpty then firstPathHit data rest else some s
      | _ => firstPathHit data rest

/-- `extract_text_from_api_response`: the falsy and `str` guards, the guarded
path probes in order, then the pretty-printed JSON fallback. -/
def extract_text_from_api_response (data : JsonV) : Option (List Char) :=
  if ¬ pyTruthy data then none
  else
    match data with
    | jstr s => some s
    | _ =>
        match firstPathHit data checksList with
        | some s => some s
        | none => some (jsonDumps data)

/-! ### `generate_itinerary` (src/api/index.py lines 39-70) -/

/-- Substring test (`needle in haystack` on strings). -/
def isSubstr (n : List Char) : List Char → Bool
  | [] => n.isEmpty
  | h =>
      match h with
      | [] => n.isEmpty
      | _ :: t => n.isPrefixOf h || isSubstr n t

/-- Python `k in data` on the shapes reachable from a JSON body; `none`
models the `TypeError` on uncontained types (caught by the outer handler). -/
def pyContains (data : JsonV) (k : List Char) : Option Bool :=
  match data with
  | jobj kvs => some (objLookup kvs k).isSome
  | jarr xs => some (xs.any (fun v => beqJ v (jstr k)))
  | jstr s => some (isSubstr k s)
  | _ => none

/-- `", ".join(parts)`. -/
def joinComma : List (List Char) → List Char
  | [] => []
  | [x] => x
  | x :: xs => x ++ s2l ", " ++ joinComma xs

/-- The required-fields table of line 51. -/
def required_fields : List (List Char) :=
  [s2l "days", s2l "destination", s2l "budget", s2l "travelers"]

/-- `data[k]`; `none` models the raised error on non-dicts. -/
def pyGetItem (data : JsonV) (k : List Char) : Option JsonV :=
  match data with
  | jobj kvs => objLookup kvs k
  | _ => none

/-- The prompt f-string of line 58. -/
def buildGenPrompt (data : JsonV) : Option (List Char) := do
  let d ← pyGetItem data (s2l "days")
  let dest ← pyGetItem data (s2l "destination")
  let b ← pyGetItem data (s2l "budget")
  let t ← pyGetItem data (s2l "travelers")
  return s2l "Create a detailed " ++ pyStr d ++ s2l "-day travel itinerary for " ++
    pyStr dest ++ s2l " with a budget of " ++ pyStr b ++ s2l " for " ++ pyStr t ++
    s2l " travelers. Include specific activities, restaurants, and accommodations."

/-- The `generate_itinerary` handler up to the point where the generative
model would be invoked: `.inl (status, message)` is an early JSON error
response (the model is never invoked), `.inr prompt` proceeds to
`model.generate_content`.  The outer `except` maps any raised error to the
500 response. -/
def generate_itinerary (modelReady : Bool) (data : JsonV) :
    Sum (Nat × List Char) (List Char) :=
  if ¬ modelReady then .inl (503, s2l "AI service not available")
  else if ¬ pyTruthy data then .inl (400, s2l "No data provided")
  else
    match required_fields.mapM (fun f => pyContains data f) with
    | none => .inl (500, s2l "An error occurred while generating the itinerary")
    | some hits =>
        if ¬ ((required_fields.zip hits).filterMap
            (fun fh => if fh.2 then none else some fh.1)).isEmpty then
          .inl (400, s2l "Missing required fields: " ++
            joinComma ((required_fields.zip hits).filterMap
              (fun fh => if fh.2 then none else some fh.1)))
        else
          match buildGenPrompt data with
          | some p => .inr p
          | none => .inl (500, s2l "An error occurred while generating the itinerary")


/-! ### Map-link helpers (src/app.py lines 255-267, 474-516) -/

/-- Whether a byte needs no percent-encoding under `urllib.parse.quote_plus`. -/
def isUrlSafe (b : Nat) : Bool :=
  (0x41 ≤ b ∧ b ≤ 0x5A) ∨ (0x61 ≤ b ∧ b ≤ 0x7A) ∨ (0x30 ≤ b ∧ b ≤ 0x39) ∨
    b = 0x5F ∨ b = 0x2E ∨ b = 0x2D ∨ b = 0x7E

/-- Uppercase hex digit. -/
def hexCharU (n : Nat) : Char :=
  if n < 10 then Char.ofNat (48 + n) else Char.ofNat (55 + n)

/-- `urllib.parse.quote_plus`: UTF-8 bytes, space to `+`, unsafe bytes to
`%XX`. -/
def quote_plus (s : List Char) : List Char :=
  ((utf8Encode s).map (fun b =>
    if b = 0x20 then ['+']
    else if isUrlSafe b then [Char.ofNat b]
    else ['%', hexCharU (b / 16), hexCharU (b % 16)])).flatten

/-- `urllib.parse.urlencode` over already-stringified parameters. -/
def urlencode (ps : List (List Char × List Char)) : List Char :=
  joinAmp (ps.map (fun p => quote_plus p.1 ++ '=' :: quote_plus p.2))
where
  /-- `&`-join. -/
  joinAmp : List (List Char) → List Char
    | [] => []
    | [x] => x
    | x :: xs => x ++ '&' :: joinAmp xs

/-- `build_maps_dir_link` (lines 255-267): `None` destination gives no link;
parameter order is `api`, `origin`, `destination`, optional pipe-joined
`waypoints`, `travelmode`. -/
def build_maps_dir_link (origin destination : JsonV) (waypoints : List (List Char)) :
    Option (List Char) :=
  if ¬ pyTruthy destination then none
  else
    let wp : List (List Char × List Char) :=
      match waypoints with
      | [] => []
      | _ => [(s2l "waypoints", joinPipe waypoints)]
    some (s2l "https://www.google.com/maps/dir/?" ++
      urlencode ([(s2l "api", s2l "1"), (s2l "origin", pyStr (pyOr origin (jstr []))),
        (s2l "destination", pyStr destination)] ++ wp ++ [(s2l "travelmode", s2l "driving")]))
where
  /-- `|`-join. -/
  joinPipe : List (List Char) → List Char
    | [] => []
    | [x] => x
    | x :: xs => x ++ '|' :: joinPipe xs

/-- One `-?\d+(\.\d+)?` token of the numeric-pair pattern; the optional
fraction group backtracks away when the dot is not followed by a digit. -/
def chompNum (l : List Char) : Option (List Char) :=
  let l1 := match l with
    | '-' :: r => r
    | _ => l
  let ds := l1.takeWhile Char.isDigit
  if ds.isEmpty then none
  else
    let r := l1.dropWhile Char.isDigit
    match r with
    | '.' :: rr =>
        let fs := rr.takeWhile Char.isDigit
        if fs.isEmpty then some r else some (rr.dropWhile Char.isDigit)
    | _ => some r

/-- `re.match(r"^\s*-?\d+(\.\d+)?\s*,\s*-?\d+(\.\d+)?\s*$", q)`. -/
def isNumericPair (l : List Char) : Bool :=
  match chompNum (l.dropWhile isPyWs) with
  | none => false
  | some r =>
      match r.dropWhile isPyWs with
      | ',' :: r2 =>
          (match chompNum (r2.dropWhile isPyWs) with
            | some r3 => (r3.dropWhile isPyWs).isEmpty
            | none => false)
      | _ => false

/-- `build_maps_query` (lines 474-480): numeric pairs pass through with
spaces removed, anything else is `quote_plus`-encoded. -/
def build_maps_query (q : JsonV) : List Char :=
  if ¬ pyTruthy q then []
  else
    let qs := pyStrip (pyStr q)
    if isNumericPair qs then qs.filter (fun c => c ≠ ' ') else quote_plus qs

/-! ### The request handler `plan` (src/app.py lines 274-606)

The outbound `call_gemini` is modelled by its outcome (an `Except` argument:
a raised exception's text, or the returned response text), and the
floating-point haversine travel-time estimate by an `estTime` function
argument (the value of the guarded `f"{mins} min"` computation, `""` on its
internal failure).  Raised errors escaping the handler are `.error`. -/

/-- Whether the value is `None`. -/
def isNullV : JsonV → Bool
  | jnull => true
  | _ => false

/-- The truthy-chain of `parsed.get(k1) or parsed.get(k2) or ... or []`. -/
def popularOf (parsed : JsonV) (keys : List (List Char)) : JsonV :=
  keys.foldr (fun k acc => pyOr (pyGet parsed k) acc) (jarr [])

/-- The key synonyms tried for dinner recommendations (lines 339-344). -/
def dinnerKeys : List (List Char) :=
  [s2l "popular_dinner_recommendations", s2l "popular_dinners", s2l "dining",
    s2l "dinner_recommendations", s2l "popular_foods"]

/-- The key synonyms tried for stays (lines 352-357). -/
def stayKeys : List (List Char) :=
  [s2l "popular_stays", s2l "stays", s2l "accommodations", s2l "hotels",
    s2l "recommended_stays"]

/-- The key synonyms tried for travel instructions (lines 365-370). -/
def travelKeys : List (List Char) :=
  [s2l "travel_instructions", s2l "travel", s2l "directions", s2l "route",
    s2l "travel_steps"]

/-- Lines 345-349 and 358-362: `safe_load_json_like`, a lone mapping becomes
a singleton list, any non-list becomes empty. -/
def popNorm (v : JsonV) : JsonV :=
  let v1 := safe_load_json_like v
  let v2 := match v1 with
    | jobj kvs => jarr [jobj kvs]
    | w => w
  match v2 with
  | jarr xs => jarr xs
  | _ => jarr []

/-- The accumulating worker of `re.split(r"[\n\r]+", s)`. -/
def splitNlGo (acc : List Char) : List Char → List (List Char)
  | [] => [acc.reverse]
  | c :: cs =>
      if c = '\n' ∨ c = '\r' then
        acc.reverse :: splitNlGo [] (cs.dropWhile (fun c2 => c2 = '\n' ∨ c2 = '\r'))
      else splitNlGo (c :: acc) cs
termination_by l => l.length
decreasing_by
  · simp only [List.length_cons]
    exact Nat.lt_succ_of_le (List.dropWhile_suffix _).sublist.length_le
  · simp only [List.length_cons]
    exact Nat.lt_succ_self _

/-- `re.split(r"[\n\r]+", s)`. -/
def splitNl (l : List Char) : List (List Char) := splitNlGo [] l

/-- Lines 371-383: travel instructions from a string (JSON parse, else one
leg per non-blank line), a mapping (singleton), a list (as is), else empty.
The string parse keeps whatever value `json.loads` returns. -/
def travelNorm (travel_raw : JsonV) : JsonV :=
  match travel_raw with
  | jstr s =>
      (match json_loads s with
        | some v => v
        | none =>
            jarr ((splitNl s).filterMap (fun line =>
              let t := pyStrip line
              if t.isEmpty then none
              else some (jobj [(s2l "from", jstr []), (s2l "to", jstr []),
                (s2l "transport", jstr []), (s2l "approx_time", jstr []),
                (s2l "notes", jstr t)]))))
  | jobj kvs => jarr [jobj kvs]
  | jarr xs => jarr xs
  | _ => jarr []

/-- Lines 386-389: `days_n` (computed and, in this version of the handler,
never used afterwards).  `len` of an unsized itinerary raises inside both the
`try` and the `except` branch, so it escapes. -/
def computeDaysN (days : List Char) (itinerary : JsonV) : Except (List Char) Int :=
  if ¬ days.isEmpty ∧ pyIsDigit days then .ok (digitsToNat days : Int)
  else
    match pyLen itinerary with
    | some n => .ok (if n = 0 then 1 else (n : Int))
    | none => .error (s2l "TypeError: object of this type has no len")

/-- Python iteration order over the shapes arising here (`list` elements,
`dict` keys, `str` characters); `none` models the `TypeError` on
non-iterables. -/
def pyIterItems : JsonV → Option (List JsonV)
  | jarr xs => some xs
  | jobj kvs => some (kvs.map (fun p => jstr p.1))
  | jstr s => some (s.map (fun c => jstr [c]))
  | _ => none

/-- The synthesized visit dict of lines 398-407. -/
def mkSynthVisit (idx : Nat) (name : JsonV) (dinners2 : JsonV) : JsonV :=
  jobj [(s2l "order", jint (idx : Int)), (s2l "location_name", name),
    (s2l "suggested_time", jstr []), (s2l "estimated_duration", jstr []),
    (s2l "note", jstr []), (s2l "latitude", jnull), (s2l "longitude", jnull),
    (s2l "nearby_food_recommendations", dinners2)]

/-- The inner loop over one day's activities (lines 396-408), threading the
1-based counter `idx`. -/
def synthActs (dinners2 : JsonV) : Nat → List JsonV → Except (List Char) (Nat × List JsonV)
  | idx, [] => .ok (idx, [])
  | idx, act :: rest =>
      match
        (match act with
          | jstr s => some (jstr s)
          | jobj kvs => some ((objLookup kvs (s2l "name")).getD (jstr (s2l "Place " ++ s2l (toString idx))))
          | _ => none)
      with
      | none => .error (s2l "AttributeError: activity entry has no get")
      | some name =>
          match synthActs dinners2 (idx + 1) rest with
          | .error e => .error e
          | .ok (idx2, vs) => .ok (idx2, mkSynthVisit idx name dinners2 :: vs)

/-- The outer loop over itinerary days (lines 394-408). -/
def synthDays (dinners2 : JsonV) : Nat → List JsonV → Except (List Char) (Nat × List JsonV)
  | idx, [] => .ok (idx, [])
  | idx, day :: rest =>
      match day with
      | jobj kvs =>
          (match pyIterItems (pyOr ((objLookup kvs (s2l "activities")).getD jnull) (jarr [])) with
            | none => .error (s2l "TypeError: activities not iterable")
            | some acts =>
                match synthActs dinners2 idx acts with
                | .error e => .error e
                | .ok (idx2, vs) =>
                    match synthDays dinners2 idx2 rest with
                    | .error e => .error e
                    | .ok (idx3, vs2) => .ok (idx3, vs ++ vs2))
      | _ => .error (s2l "AttributeError: day entry has no get")

/-- Lines 391-408: when the normalized visit sequence is empty but an
itinerary is present, synthesize one visit per activity, attaching the first
two popular-dinner entries. -/
def synthVisitsFromItin (itinerary : JsonV) (popular_dinners : JsonV) :
    Except (List Char) (List JsonV) :=
  let dinners2 := match pyOr popular_dinners (jarr []) with
    | jarr xs => jarr (xs.take 2)
    | v => v
  match pyIterItems itinerary with
  | none => .error (s2l "TypeError: itinerary not iterable")
  | some ds =>
      match synthDays dinners2 1 ds with
      | .error e => .error e
      | .ok (_, vs) => .ok vs

/-- `f"{float(x)}"` for the coordinate values (decimal literals are carried
verbatim; Python shortest-repr differences on non-canonical literals are
outside the model); `none` models a failed `float(x)`. -/
def pyFloatFmt : JsonV → Option (List Char)
  | jint n => some (s2l (toString n) ++ s2l ".0")
  | jfloat lit => some lit
  | jbool b => some (if b then s2l "1.0" else s2l "0.0")
  | jstr s =>
      let t := pyStrip s
      (match chompNum t with
        | some r => if r.isEmpty then some t else none
        | none => none)
  | _ => none

/-- Python dict assignment on an association list keyed by node names. -/
def assocUpd (m : List (JsonV × List Char)) (k : JsonV) (v : List Char) :
    List (JsonV × List Char) :=
  match m with
  | [] => [(k, v)]
  | (k2, v2) :: rest =>
      if beqJ k2 k then (k2, v) :: rest else (k2, v2) :: assocUpd rest k v

/-- Association lookup with the same key equality. -/
def assocFind (m : List (JsonV × List Char)) (k : JsonV) : Option (List Char) :=
  match m with
  | [] => none
  | (k2, v) :: rest => if beqJ k2 k then some v else assocFind rest k

/-- `location_to_coords` (lines 453-458): nodes with non-`None`, floatable
coordinates, keyed by rendered location name. -/
def coordsMapOf (ns : List NodeV) : List (JsonV × List Char) :=
  ns.foldl (fun m n =>
    if isNullV n.latitude ∨ isNullV n.longitude then m
    else
      match pyFloatFmt n.latitude, pyFloatFmt n.longitude with
      | some la, some lo => assocUpd m n.location_name (la ++ ',' :: lo)
      | _, _ => m) []

/-- `coords_list` (lines 461-468): the float pairs for the client map. -/
def coordsListOf (ns : List NodeV) : List (List Char × List Char) :=
  ns.filterMap (fun n =>
    if isNullV n.latitude ∨ isNullV n.longitude then none
    else
      match pyFloatFmt n.latitude, pyFloatFmt n.longitude with
      | some la, some lo => some (la, lo)
      | _, _ => none)

/-- `coords` (lines 498-502): raw `f"{lat},{lon}"` strings for nodes with
both coordinates present. -/
def coordsStrs (ns : List NodeV) : List (List Char) :=
  ns.filterMap (fun n =>
    if isNullV n.latitude ∨ isNullV n.longitude then none
    else some (pyStr n.latitude ++ ',' :: pyStr n.longitude))

/-- `maps_directions_link` (lines 503-516); parameter order here is `api`,
`origin`, `destination`, `travelmode`, then `waypoints` (added last). -/
def mapsDirectionsLink (origin : List Char) (coords : List (List Char)) :
    Option (List Char) :=
  match coords with
  | [] => none
  | _ =>
      let lastC := coords.getLast?.getD []
      let (originP, destP, wps) :=
        if ¬ origin.isEmpty then (origin, lastC, coords.dropLast)
        else (coords.headD [], lastC, (coords.drop 1).dropLast)
      let wstr := joinPipe2 wps
      some (s2l "https://www.google.com/maps/dir/?" ++
        urlencode ([(s2l "api", s2l "1"), (s2l "origin", originP),
          (s2l "destination", destP), (s2l "travelmode", s2l "driving")] ++
          (if wstr.isEmpty then [] else [(s2l "waypoints", wstr)])))
where
  /-- `|`-join. -/
  joinPipe2 : List (List Char) → List Char
    | [] => []
    | [x] => x
    | x :: xs => x ++ '|' :: joinPipe2 xs

/-- Lines 521-539: enrich one model-provided travel leg with a map link. -/
def enrichLeg (locMap : List (JsonV × List Char)) (mapsDir : Option (List Char))
    (leg : JsonV) : JsonV :=
  let from_name : JsonV := if isDict leg then pyGet leg (s2l "from") else jstr []
  let to_name : JsonV := if isDict leg then pyGet leg (s2l "to") else jstr []
  let from_coords := assocFind locMap from_name
  let to_coords := assocFind locMap to_name
  let leg_map : Option (List Char) :=
    match from_coords, to_coords with
    | some fc, some tc => build_maps_dir_link (jstr fc) (jstr tc) []
    | some fc, none =>
        if pyTruthy to_name then build_maps_dir_link (jstr fc) to_name [] else mapsDir
    | none, some tc =>
        if pyTruthy from_name then build_maps_dir_link from_name (jstr tc) [] else mapsDir
    | none, none => mapsDir
  let base := match leg with
    | jobj kvs => kvs
    | _ => [(s2l "notes", jstr (pyStr leg))]
  jobj (objUpd base (s2l "map_link")
    (match leg_map with
      | some s => jstr s
      | none => jnull))

/-- Lines 543-569: synthesized legs between consecutive nodes when the model
provided none; the guarded haversine estimate is the `estTime` parameter. -/
def synthTravel (estTime : JsonV → JsonV → JsonV → JsonV → List Char)
    (ns : List NodeV) : List JsonV :=
  (ns.zip ns.tail).map (fun p =>
    let a := p.1
    let b := p.2
    let okA := ¬ (isNullV a.latitude ∨ isNullV a.longitude)
    let okB := ¬ (isNullV b.latitude ∨ isNullV b.longitude)
    let approx : JsonV :=
      if okA ∧ okB then jstr (estTime a.latitude a.longitude b.latitude b.longitude)
      else jstr []
    let originP : JsonV :=
      if okA then jstr (pyStr a.latitude ++ ',' :: pyStr a.longitude) else a.location_name
    let destP : JsonV :=
      if okB then jstr (pyStr b.latitude ++ ',' :: pyStr b.longitude) else b.location_name
    let ml := build_maps_dir_link originP destP []
    jobj [(s2l "from", a.location_name), (s2l "to", b.location_name),
      (s2l "transport", jstr (s2l "Taxi/Auto")), (s2l "approx_time", approx),
      (s2l "notes", jstr []),
      (s2l "map_link", match ml with
        | some s => jstr s
        | none => jnull)])

/-- Lines 572-577: keep dict legs, wrap anything else. -/
def finalTravel (mapsDir : Option (List Char)) (legs : List JsonV) : List JsonV :=
  legs.map (fun leg =>
    match leg with
    | jobj kvs => jobj kvs
    | other =>
        jobj [(s2l "from", jstr []), (s2l "to", jstr []), (s2l "transport", jstr []),
          (s2l "approx_time", jstr []), (s2l "notes", jstr (pyStr other)),
          (s2l "map_link", match mapsDir with
            | some s => jstr s
            | none => jnull)])

/-- `.strip()` on the searched destination; raises on a non-string value. -/
def pyStripV : JsonV → Except (List Char) (List Char)
  | jstr s => .ok (pyStrip s)
  | _ => .error (s2l "AttributeError: value has no strip")

/-- The closing fragment of the sample payload. -/
def sT8 : List Char := s2l "\n\x7d"

/-- The `travel_instructions` field text of the sample payload. -/
def sT7 : List Char := s2l "\n  \"travel_instructions\": [\n    \x7b\"from\":\"Your origin\",\"to\":\"Mathura Junction\",\"transport\":\"Train/car\",\"approx_time\":\"Varies\",\"notes\":\"From Mathura Junction take a rickshaw to Janmabhoomi (~10-20 min)\"\x7d\n  ]" ++ sT8

/-- The `popular_stays` field text of the sample payload. -/
def sT6 : List Char := s2l "\n  \"popular_stays\": [\x7b\"name\":\"Hotel Madhuvan\",\"reason\":\"Comfortable near temples\",\"rating\":4.0,\"price_level\":\"₹₹\",\"address\":\"Near Janmabhoomi, Mathura\"\x7d]," ++ sT7

/-- The `popular_dinner_recommendations` field text of the sample payload. -/
def sT5 : List Char := s2l "\n  \"popular_dinner_recommendations\": [\x7b\"name\":\"Brijwasi Sweets\",\"reason\":\"Local sweets\",\"rating\":4.2,\"price_level\":\"₹\"\x7d]," ++ sT6

/-- The `visit_sequence` field text of the sample payload. -/
def sT4 : List Char := s2l "\n  \"visit_sequence\": [\n    \x7b \"order\": 1, \"location_name\": \"Shri Krishna Janmabhoomi\", \"suggested_time\": \"Morning\", \"estimated_duration\": \"2 hours\",\n      \"note\": \"Start early\", \"latitude\": 27.4921, \"longitude\": 77.6745,\n      \"nearby_food_recommendations\": [\x7b\"name\":\"Brijwasi Sweets\",\"rating\":4.2,\"distance_m\":300,\"price_level\":\"₹\",\"reason\":\"Famous for pedas\"\x7d]\n    \x7d,\n    \x7b \"order\": 2, \"location_name\": \"Banke Bihari Temple (Vrindavan)\", \"suggested_time\": \"Morning\", \"estimated_duration\": \"2 hours\",\n      \"note\": \"Crowded, come early\", \"latitude\": 27.5807, \"longitude\": 77.7061,\n      \"nearby_food_recommendations\": [\x7b\"name\":\"Local stalls\",\"rating\":3.8,\"distance_m\":100,\"price_level\":\"₹\",\"reason\":\"Street snacks\"\x7d]\n    \x7d,\n    \x7b \"order\": 3, \"location_name\": \"Govardhan Hill\", \"suggested_time\": \"Afternoon\", \"estimated_duration\": \"3 hours\",\n      \"note\": \"Scenic spot\", \"latitude\": 27.4833, \"longitude\": 77.6750,\n      \"nearby_food_recommendations\": [\x7b\"name\":\"Hill Cafe\",\"rating\":4.0,\"distance_m\":250,\"price_level\":\"₹₹\",\"reason\":\"Good view\"\x7d]\n    \x7d\n  ]," ++ sT5

/-- The `itinerary` field text of the sample payload. -/
def sT3 : List Char := s2l "\n  \"itinerary\": [\n    \x7b \"day_number\": 1, \"summary\": \"Arrival and Janmabhoomi\", \"activities\": [\"Visit Shri Krishna Janmabhoomi\",\"Evening aarti\"], \"approximate_cost\": 500 \x7d,\n    \x7b \"day_number\": 2, \"summary\": \"Vrindavan temples\", \"activities\": [\"Banke Bihari Temple\",\"Prem Mandir\"], \"approximate_cost\": 700 \x7d,\n    \x7b \"day_number\": 3, \"summary\": \"Local markets & departure\", \"activities\": [\"Local markets\",\"Depart\"], \"approximate_cost\": 300 \x7d\n  ]," ++ sT4

/-- The `maps_query` field text of the sample payload. -/
def sT2 : List Char := s2l "\n  \"maps_query\": \"Mathura,India\"," ++ sT3

/-- The `destination_name` field text of the sample payload. -/
def sT1 : List Char := s2l "\n  \"destination_name\": \"Mathura, India\"," ++ sT2

/-- The JSON object text embedded in the sample payload. -/
def sampleInner : List Char := s2l "\x7b" ++ sT1

/-- The static fallback payload `SAMPLE_GEMINI_RAW` (src/app.py lines 22-51),
byte for byte, split at the top-level field boundaries of its embedded JSON
object. -/
def sampleTailEM : List Char := s2l "\n===JSON_END==="

/-- (continued) -/
def SAMPLE_GEMINI_RAW : List Char :=
  s2l "===JSON_START===\n" ++ sampleInner ++ sampleTailEM

/-- The parsed fields of the sample object, in order. -/
def sampleFields : List (List Char × JsonV) :=
  [(s2l "destination_name",
    jstr (s2l "Mathura, India")),
  (s2l "maps_query",
    jstr (s2l "Mathura,India")),
  (s2l "itinerary",
    jarr [jobj [(s2l "day_number", jint 1), (s2l "summary", jstr (s2l "Arrival and Janmabhoomi")), (s2l "activities", jarr [jstr (s2l "Visit Shri Krishna Janmabhoomi"), jstr (s2l "Evening aarti")]), (s2l "approximate_cost", jint 500)], jobj [(s2l "day_number", jint 2), (s2l "summary", jstr (s2l "Vrindavan temples")), (s2l "activities", jarr [jstr (s2l "Banke Bihari Temple"), jstr (s2l "Prem Mandir")]), (s2l "approximate_cost", jint 700)], jobj [(s2l "day_number", jint 3), (s2l "summary", jstr (s2l "Local markets & departure")), (s2l "activities", jarr [jstr (s2l "Local markets"), jstr (s2l "Depart")]), (s2l "approximate_cost", jint 300)]]),
  (s2l "visit_sequence",
    jarr [jobj [(s2l "order", jint 1), (s2l "location_name", jstr (s2l "Shri Krishna Janmabhoomi")), (s2l "suggested_time", jstr (s2l "Morning")), (s2l "estimated_duration", jstr (s2l "2 hours")), (s2l "note", jstr (s2l "Start early")), (s2l "latitude", jfloat (s2l "27.4921")), (s2l "longitude", jfloat (s2l "77.6745")), (s2l "nearby_food_recommendations", jarr [jobj [(s2l "name", jstr (s2l "Brijwasi Sweets")), (s2l "rating", jfloat (s2l "4.2")), (s2l "distance_m", jint 300), (s2l "price_level", jstr (s2l "₹")), (s2l "reason", jstr (s2l "Famous for pedas"))]])], jobj [(s2l "order", jint 2), (s2l "location_name", jstr (s2l "Banke Bihari Temple (Vrindavan)")), (s2l "suggested_time", jstr (s2l "Morning")), (s2l "estimated_duration", jstr (s2l "2 hours")), (s2l "note", jstr (s2l "Crowded, come early")), (s2l "latitude", jfloat (s2l "27.5807")), (s2l "longitude", jfloat (s2l "77.7061")), (s2l "nearby_food_recommendations", jarr [jobj [(s2l "name", jstr (s2l "Local stalls")), (s2l "rating", jfloat (s2l "3.8")), (s2l "distance_m", jint 100), (s2l "price_level", jstr (s2l "₹")), (s2l "reason", jstr (s2l "Street snacks"))]])], jobj [(s2l "order", jint 3), (s2l "location_name", jstr (s2l "Govardhan Hill")), (s2l "suggested_time", jstr (s2l "Afternoon")), (s2l "estimated_duration", jstr (s2l "3 hours")), (s2l "note", jstr (s2l "Scenic spot")), (s2l "latitude", jfloat (s2l "27.4833")), (s2l "longitude", jfloat (s2l "77.6750")), (s2l "nearby_food_recommendations", jarr [jobj [(s2l "name", jstr (s2l "Hill Cafe")), (s2l "rating", jfloat (s2l "4.0")), (s2l "distance_m", jint 250), (s2l "price_level", jstr (s2l "₹₹")), (s2l "reason", jstr (s2l "Good view"))]])]]),
  (s2l "popular_dinner_recommendations",
    jarr [jobj [(s2l "name", jstr (s2l "Brijwasi Sweets")), (s2l "reason", jstr (s2l "Local sweets")), (s2l "rating", jfloat (s2l "4.2")), (s2l "price_level", jstr (s2l "₹"))]]),
  (s2l "popular_stays",
    jarr [jobj [(s2l "name", jstr (s2l "Hotel Madhuvan")), (s2l "reason", jstr (s2l "Comfortable near temples")), (s2l "rating", jfloat (s2l "4.0")), (s2l "price_level", jstr (s2l "₹₹")), (s2l "address", jstr (s2l "Near Janmabhoomi, Mathura"))]]),
  (s2l "travel_instructions",
    jarr [jobj [(s2l "from", jstr (s2l "Your origin")), (s2l "to", jstr (s2l "Mathura Junction")), (s2l "transport", jstr (s2l "Train/car")), (s2l "approx_time", jstr (s2l "Varies")), (s2l "notes", jstr (s2l "From Mathura Junction take a rickshaw to Janmabhoomi (~10-20 min)"))]])]


/-- The value `json.loads` yields for the embedded sample object. -/
def sampleParsed : JsonV := jobj sampleFields

/-- The example payload of the prompt (lines 287-301). -/
def examplePayload : JsonV :=
  jobj [(s2l "destination_name", jstr (s2l "Place, Country")),
    (s2l "maps_query", jstr (s2l "Place,Country")),
    (s2l "itinerary", jarr [jobj [(s2l "day_number", jint 1),
      (s2l "summary", jstr (s2l "Sample day")),
      (s2l "activities", jarr [jstr (s2l "Activity 1"), jstr (s2l "Activity 2")]),
      (s2l "approximate_cost", jint 100)]]),
    (s2l "visit_sequence", jarr [jobj [(s2l "order", jint 1),
      (s2l "location_name", jstr (s2l "Activity 1")),
      (s2l "suggested_time", jstr (s2l "Morning")),
      (s2l "estimated_duration", jstr (s2l "1 hour")),
      (s2l "note", jstr (s2l "Tip")), (s2l "latitude", jnull), (s2l "longitude", jnull),
      (s2l "nearby_food_recommendations", jarr [jobj [(s2l "name", jstr (s2l "Sample Eatery")),
        (s2l "rating", jfloat (s2l "4.2")), (s2l "distance_m", jint 200),
        (s2l "price_level", jstr (s2l "₹")),
        (s2l "reason", jstr (s2l "Local favorite"))]])]]),
    (s2l "popular_dinner_recommendations", jarr [jobj [(s2l "name", jstr (s2l "Sample Eatery")),
      (s2l "reason", jstr (s2l "Tasty local food")), (s2l "rating", jfloat (s2l "4.2")),
      (s2l "price_level", jstr (s2l "₹"))]]),
    (s2l "popular_stays", jarr [jobj [(s2l "name", jstr (s2l "Sample Hotel")),
      (s2l "reason", jstr (s2l "Convenient")), (s2l "rating", jfloat (s2l "4.0")),
      (s2l "price_level", jstr (s2l "₹₹"))]]),
    (s2l "travel_instructions", jarr [jobj [(s2l "from", jstr (s2l "origin")),
      (s2l "to", jstr (s2l "destination")), (s2l "transport", jstr (s2l "train/taxi")),
      (s2l "approx_time", jstr (s2l "Varies")), (s2l "notes", jstr (s2l "Short note"))]])]

/-- The prompt f-string of lines 302-323 (sent to the upstream API, whose
outcome the handler embedding takes as an argument). -/
def buildPrompt (destination preferences days budget origin : List Char) : List Char :=
  s2l "\nYou are a travel planner assistant. Return ONLY a JSON object between the markers below:\n\n===JSON_START===\n<JSON>\n===JSON_END===\n\nInputs:\n- destination: \"" ++
    destination ++ s2l "\"\n- preferences: \"" ++ preferences ++
    s2l "\"\n- days: \"" ++ days ++ s2l "\"\n- budget: \"" ++ budget ++
    s2l "\"\n- origin: \"" ++ (if origin.isEmpty then s2l "not provided" else origin) ++
    s2l "\"\n\nSchema example:\n" ++ jsonDumps examplePayload ++
    s2l "\n\nRequirements:\n- Return exactly one JSON object between the markers. Do not include any other text.\n- Ensure visit_sequence is an ordered array with numeric \x27order\x27 fields.\n- For each visit_sequence item include at least one nearby_food_recommendation if possible.\n"

/-- Everything handed to `render_template("result.html", ...)`. -/
structure RenderData where
  destination : List Char
  preferences : List Char
  days : List Char
  budget : List Char
  origin : List Char
  gemini_raw : List Char
  parsed : JsonV
  itinerary : JsonV
  visit_nodes : List NodeV
  coords_list : List (List Char × List Char)
  maps_link : Option (List Char)
  maps_search_link : Option (List Char)
  maps_iframe_src : Option (List Char)
  maps_directions_link : Option (List Char)
  travel_instructions : List JsonV
  popular_dinners : JsonV
  popular_stays : JsonV
  show_debug : Bool
  svg_width : Nat
  svg_height : Nat
  cols : Nat
  rows : Nat

/-- A completed request: a flash-and-redirect to the index, or a rendered
page (with the accumulated flash messages). -/
inductive PlanOut where
  | redirect (flashes : List (List Char))
  | page (flashes : List (List Char)) (r : RenderData)

/-- The tail of the `plan` handler from the point where the response JSON is
in hand (lines 352-606), with the stripped form inputs, the flash messages
and raw response accumulated so far, and the parsed value. -/
def planParsed (maxCols : Nat) (estTime : JsonV → JsonV → JsonV → JsonV → List Char)
    (devMode debugFlag : Bool)
    (destination preferences days budget origin : List Char)
    (flashes : List (List Char)) (gemini_raw : List Char) (parsed : JsonV) :
    Except (List Char) PlanOut :=
  let itinerary := pyOr (pyGet parsed (s2l "itinerary")) (jarr [])
    let raw_visit_sequence := pyOr (pyGet parsed (s2l "visit_sequence")) (jarr [])
    let visit_sequence := normalize_visit_sequence raw_visit_sequence
    let popular_dinners := popNorm (popularOf parsed dinnerKeys)
    let popular_stays := popNorm (popularOf parsed stayKeys)
    let travelV := travelNorm (popularOf parsed travelKeys)
    match computeDaysN days itinerary with
    | .error e => .error e
    | .ok _ =>
        match
          (if visit_sequence.isEmpty ∧ pyTruthy itinerary then
            synthVisitsFromItin itinerary popular_dinners
          else .ok visit_sequence)
        with
        | .error e => .error e
        | .ok vsSyn =>
            let vsSorted := sortVisitsPy vsSyn
            match buildNodes maxCols vsSorted with
            | .error e => .error e
            | .ok (cols, rows, node_positions) =>
                let svg_height := max 260 (rows * 160 + 80)
                let locMap := coordsMapOf node_positions
                let coords_list := coordsListOf node_positions
                match pyStripV (pyOr (pyGet parsed (s2l "destination_name"))
                    (pyOr (pyGet parsed (s2l "maps_query")) (jstr destination))) with
                | .error e => .error e
                | .ok destination_for_search =>
                    let destination_for_dirs :=
                      pyOr (pyGet parsed (s2l "maps_query"))
                        (pyOr (pyGet parsed (s2l "destination_name")) (jstr destination))
                    let maps_link :=
                      if pyTruthy destination_for_dirs then
                        some (s2l "https://www.google.com/maps/dir/?" ++
                          urlencode ([(s2l "api", s2l "1"),
                            (s2l "destination", build_maps_query destination_for_dirs)] ++
                            (if ¬ origin.isEmpty then [(s2l "origin", origin)] else []) ++
                            [(s2l "travelmode", s2l "driving")]))
                      else none
                    let maps_search_link :=
                      if ¬ destination_for_search.isEmpty then
                        some (s2l "https://www.google.com/maps/search/?api=1&query=" ++
                          build_maps_query (jstr destination_for_search))
                      else none
                    let coords := coordsStrs node_positions
                    let maps_directions_link := mapsDirectionsLink origin coords
                    match pyIterItems travelV with
                    | none => .error (s2l "TypeError: travel instructions not iterable")
                    | some legs =>
                        let enriched := legs.map (enrichLeg locMap maps_directions_link)
                        let enriched_travel :=
                          if enriched.isEmpty then synthTravel estTime node_positions
                          else enriched
                        let final_travel := finalTravel maps_directions_link enriched_travel
                        .ok (.page flashes
                          { destination := destination
                            preferences := preferences
                            days := days
                            budget := budget
                            origin := origin
                            gemini_raw := gemini_raw
                            parsed := parsed
                            itinerary := itinerary
                            visit_nodes := node_positions
                            coords_list := coords_list
                            maps_link := maps_link
                            maps_search_link := maps_search_link
                            maps_iframe_src := maps_search_link
                            maps_directions_link := maps_directions_link
                            travel_instructions := final_travel
                            popular_dinners := popular_dinners
                            popular_stays := popular_stays
                            show_debug := devMode && debugFlag
                            svg_width := 1400
                            svg_height := svg_height
                            cols := cols
                            rows := rows })

/-- The `plan` handler from the settled upstream outcome: the extraction of
the parsed object (lines 349-351) feeding the tail. -/
def planCore (maxCols : Nat) (estTime : JsonV → JsonV → JsonV → JsonV → List Char)
    (devMode debugFlag : Bool)
    (destination preferences days budget origin : List Char)
    (flashes : List (List Char)) (gemini_raw : List Char) :
    Except (List Char) PlanOut :=
  planParsed maxCols estTime devMode debugFlag destination preferences days
    budget origin flashes gemini_raw
    (match extract_json_from_text gemini_raw with
      | some v => pyOr v (jobj [])
      | none => jobj [])

/-- The `plan` handler (lines 274-606).  `maxCols` is the configured
`TREASUREMAP_MAX_COLS`, `devMode`/`debugFlag` the debug gate inputs,
`gemini` the outcome of `call_gemini` (`.error` carries `str(e)`), and
`estTime` the guarded haversine travel-time text.  The result is `.error`
when the handler itself raises. -/
def plan (maxCols : Nat) (estTime : JsonV → JsonV → JsonV → JsonV → List Char)
    (devMode debugFlag : Bool)
    (destination0 preferences0 days0 budget0 origin0 : List Char)
    (gemini : Except (List Char) (List Char)) : Except (List Char) PlanOut :=
  let destination := pyStrip destination0
  let preferences := pyStrip preferences0
  let days := pyStrip days0
  let budget := pyStrip budget0
  let origin := pyStrip origin0
  if destination.isEmpty then .ok (.redirect [s2l "Please provide a destination."])
  else
    match gemini with
    | .ok t =>
        planCore maxCols estTime devMode debugFlag destination preferences days
          budget origin [] t
    | .error e =>
        planCore maxCols estTime devMode debugFlag destination preferences days
          budget origin
          [s2l "Gemini API error: " ++ e ++ s2l ". Showing sample response."]
          SAMPLE_GEMINI_RAW

/-- The flash messages of a completed request. -/
def planFlashes : Except (List Char) PlanOut → Option (List (List Char))
  | .ok (.page f _) => some f
  | .ok (.redirect f) => some f
  | .error _ => none

/-- The render data of a successfully rendered page. -/
def planPage : Except (List Char) PlanOut → Option RenderData
  | .ok (.page _ r) => some r
  | _ => none

/-! ### The day-bucket synthesizer of spec section 4.5

Modelled from the spec: the branch "if `itinerary` is empty but
`visit_sequence` is present, distribute visits evenly across `days_n`
buckets ... and build one `DayPlan` per bucket" is described in the spec
(sections 4.5 and 8) and referenced by its caller-side inputs, but the code
that implements it is not among the files under `src/` (src/app.py computes
`days_n` at line 387 and never uses it).  The definitions below follow the
spec text: `bucket_size = ceil(len(visits) / days_n)`, visit `i` goes to
bucket `min(days_n - 1, i // bucket_size)`, and each bucket becomes one
`DayPlan` whose activities are the bucketed location names, with the
placeholder "Free time / local exploration" for an empty bucket. -/

/-- Modelled from the spec: a synthesized day plan (day number and activity
names). -/
structure DayPlanM where
  day_number : Nat
  activities : List (List Char)

/-- Modelled from the spec: the location name of a bucketed visit. -/
def visitName (v : JsonV) : List Char := pyStr (pyGet v (s2l "location_name"))

/-- Modelled from the spec: append one name to bucket `b`. -/
def bucketPush (buckets : List (List (List Char))) (b : Nat) (name : List Char) :
    List (List (List Char)) :=
  buckets.set b (buckets.getD b [] ++ [name])

/-- Modelled from the spec: the distribution loop, pushing visit `i` into
bucket `min(days_n - 1, i // bucket_size)`. -/
def fillBuckets (daysN bucketSize : Nat) :
    Nat → List JsonV → List (List (List Char)) → List (List (List Char))
  | _, [], buckets => buckets
  | i, v :: rest, buckets =>
      fillBuckets daysN bucketSize (i + 1) rest
        (bucketPush buckets (min (daysN - 1) (i / bucketSize)) (visitName v))

/-- Modelled from the spec: one `DayPlan` per bucket, with the placeholder
for empty buckets. -/
def synthesizeDayPlans (daysN : Nat) (visits : List JsonV) : List DayPlanM :=
  let bucketSize := (visits.length + daysN - 1) / daysN
  let buckets := fillBuckets daysN bucketSize 0 visits (List.replicate daysN [])
  (List.range daysN).map (fun b =>
    { day_number := b + 1
      activities :=
        let acts := buckets.getD b []
        if acts.isEmpty then [s2l "Free time / local exploration"] else acts })

/-- Modelled from the spec: the names bucket `b` receives from the
distribution loop starting at running index `i`, in visiting order. -/
def bucketContents (daysN bucketSize : Nat) : Nat → List JsonV → Nat → List (List Char)
  | _, [], _ => []
  | i, v :: rest, b =>
      (if min (daysN - 1) (i / bucketSize) = b then [visitName v] else []) ++
        bucketContents daysN bucketSize (i + 1) rest b



/-! ### Spec-side notions for the fence stripper (claim C9) -/

/-- Whether a fence tag is one the regex accepts: empty, or `json` in any
letter case. -/
def fenceTagOk (tag : List Char) : Bool :=
  tag.isEmpty || (tag.length = 4 && isPrefixOfCI (s2l "json") tag)

/-- A string entirely wrapped in a triple-backtick fence, optionally tagged
`json` (case-insensitively), optionally ending in the single trailing
newline Python's `$` anchor tolerates.  The condition on an untagged inner
text rules out the ambiguous reading in which the inner text itself supplies
the tag letters. -/
def fenceWrapped (t : List Char) : Prop :=
  ∃ tag inner nl, fenceTagOk tag = true ∧ (nl = [] ∨ nl = ['\n']) ∧
    (tag = [] → isPrefixOfCI (s2l "json") (inner ++ s2l "```" ++ nl) = false) ∧
    t = s2l "```" ++ tag ++ inner ++ s2l "```" ++ nl

/-! ## Helper lemmas -/

/-- `dropWhile` does nothing after a failing head test. -/
theorem dropWhile_cons_neg (p : Char → Bool) (c : Char) (l : List Char) (h : p c = false) :
    (c :: l).dropWhile p = c :: l := by
  simp [List.dropWhile, h]

/-- `strip_code_fences` leaves any text that does not open with a fence. -/
theorem fenceStrip_of_not_fence (t : List Char) (h : (s2l "```").isPrefixOf t = false) :
    fenceStrip t = t := by
  unfold fenceStrip fenceGroup
  simp [h]

/-- `pyStrip` is the identity when both ends are non-whitespace. -/
theorem pyStrip_of_ends (l : List Char) (c d : Char) (h1 : l.head? = some c)
    (hc : isPyWs c = false) (h2 : l.getLast? = some d) (hd : isPyWs d = false) :
    pyStrip l = l := by
  cases l with
  | nil => cases h1
  | cons a as =>
      have hac : isPyWs a = false := by
        have hx : a = c := by simpa using h1
        rw [hx]
        exact hc
      unfold pyStrip
      rw [dropWhile_cons_neg _ _ _ hac]
      obtain ⟨b, bs, hb⟩ : ∃ b bs, (a :: as).reverse = b :: bs := by
        cases hrev : (a :: as).reverse with
        | nil =>
            have hlen := congrArg List.length hrev
            simp at hlen
        | cons b bs => exact ⟨b, bs, rfl⟩
      have hbd : isPyWs b = false := by
        have hh := List.head?_reverse (a :: as)
        rw [hb, h2] at hh
        have hx : b = d := by simpa using hh
        rw [hx]
        exact hd
      rw [hb, dropWhile_cons_neg _ _ _ hbd, ← hb, List.reverse_reverse]

/-- `candAux` crosses a stretch in which no `}` is followed, after optional
whitespace, by the end marker; the running index advances by its length. -/
theorem candAux_append (a rest : List Char) (k : Nat) (h : noStopB a rest = true) :
    candAux (a ++ rest) k = candAux rest (k + a.length) := by
  induction a generalizing k with
  | nil => simp
  | cons c cs ih =>
      simp only [noStopB, Bool.and_eq_true] at h
      show candAux (c :: (cs ++ rest)) k = _
      rw [candAux, if_neg]
      · rw [ih (k + 1) h.2]
        congr 1
        simp only [List.length_cons]
        omega
      · rintro ⟨hcEq, hpre⟩
        have h1 := h.1
        rw [if_pos hcEq] at h1
        simp only [Bool.not_eq_true'] at h1
        simp [h1] at hpre

/-- `markerTryAt` at a start position where the whole pattern matches. -/
theorem markerTryAt_eq_of (t cand b : List Char)
    (h1 : SMl.isPrefixOf t = true)
    (h4 : (t.drop 16).dropWhile isPyWs = Char.ofNat 123 :: b)
    (h2 : candSearch (Char.ofNat 123 :: b) = some cand) :
    markerTryAt t = some cand := by
  rw [markerTryAt, h1]
  simp only [if_true, h4, h2]

/-- `markerFind` at a start position where the whole pattern matches. -/
theorem markerFind_eq_of (c : Char) (r cand b : List Char)
    (h1 : SMl.isPrefixOf (c :: r) = true)
    (h4 : ((c :: r).drop 16).dropWhile isPyWs = Char.ofNat 123 :: b)
    (h2 : candSearch (Char.ofNat 123 :: b) = some cand) :
    markerFind (c :: r) = some cand := by
  rw [markerFind, markerTryAt_eq_of (c :: r) cand b h1 h4 h2]

/-- Length of the opening-brace stretch of the sample. -/
theorem sampChunkLen0 : (s2l "\x7b").length = 1 := rfl

/-- Length of the field-1 stretch of the sample. -/
theorem sampChunkLen1 : (s2l "\n  \"destination_name\": \"Mathura, India\",").length = 40 := rfl

/-- Length of the field-2 stretch of the sample. -/
theorem sampChunkLen2 : (s2l "\n  \"maps_query\": \"Mathura,India\",").length = 33 := rfl

/-- Length of the field-3 stretch of the sample. -/
theorem sampChunkLen3 : (s2l "\n  \"itinerary\": [\n    \x7b \"day_number\": 1, \"summary\": \"Arrival and Janmabhoomi\", \"activities\": [\"Visit Shri Krishna Janmabhoomi\",\"Evening aarti\"], \"approximate_cost\": 500 \x7d,\n    \x7b \"day_number\": 2, \"summary\": \"Vrindavan temples\", \"activities\": [\"Banke Bihari Temple\",\"Prem Mandir\"], \"approximate_cost\": 700 \x7d,\n    \x7b \"day_number\": 3, \"summary\": \"Local markets & departure\", \"activities\": [\"Local markets\",\"Depart\"], \"approximate_cost\": 300 \x7d\n  ],").length = 442 := rfl

/-- Length of the field-4 stretch of the sample. -/
theorem sampChunkLen4 : (s2l "\n  \"visit_sequence\": [\n    \x7b \"order\": 1, \"location_name\": \"Shri Krishna Janmabhoomi\", \"suggested_time\": \"Morning\", \"estimated_duration\": \"2 hours\",\n      \"note\": \"Start early\", \"latitude\": 27.4921, \"longitude\": 77.6745,\n      \"nearby_food_recommendations\": [\x7b\"name\":\"Brijwasi Sweets\",\"rating\":4.2,\"distance_m\":300,\"price_level\":\"₹\",\"reason\":\"Famous for pedas\"\x7d]\n    \x7d,\n    \x7b \"order\": 2, \"location_name\": \"Banke Bihari Temple (Vrindavan)\", \"suggested_time\": \"Morning\", \"estimated_duration\": \"2 hours\",\n      \"note\": \"Crowded, come early\", \"latitude\": 27.5807, \"longitude\": 77.7061,\n      \"nearby_food_recommendations\": [\x7b\"name\":\"Local stalls\",\"rating\":3.8,\"distance_m\":100,\"price_level\":\"₹\",\"reason\":\"Street snacks\"\x7d]\n    \x7d,\n    \x7b \"order\": 3, \"location_name\": \"Govardhan Hill\", \"suggested_time\": \"Afternoon\", \"estimated_duration\": \"3 hours\",\n      \"note\": \"Scenic spot\", \"latitude\": 27.4833, \"longitude\": 77.6750,\n      \"nearby_food_recommendations\": [\x7b\"name\":\"Hill Cafe\",\"rating\":4.0,\"distance_m\":250,\"price_level\":\"₹₹\",\"reason\":\"Good view\"\x7d]\n    \x7d\n  ],").length = 1053 := rfl

/-- Length of the field-5 stretch of the sample. -/
theorem sampChunkLen5 : (s2l "\n  \"popular_dinner_recommendations\": [\x7b\"name\":\"Brijwasi Sweets\",\"reason\":\"Local sweets\",\"rating\":4.2,\"price_level\":\"₹\"\x7d],").length = 121 := rfl

/-- Length of the field-6 stretch of the sample. -/
theorem sampChunkLen6 : (s2l "\n  \"popular_stays\": [\x7b\"name\":\"Hotel Madhuvan\",\"reason\":\"Comfortable near temples\",\"rating\":4.0,\"price_level\":\"₹₹\",\"address\":\"Near Janmabhoomi, Mathura\"\x7d],").length = 154 := rfl

/-- Length of the field-7 stretch of the sample. -/
theorem sampChunkLen7 : (s2l "\n  \"travel_instructions\": [\n    \x7b\"from\":\"Your origin\",\"to\":\"Mathura Junction\",\"transport\":\"Train/car\",\"approx_time\":\"Varies\",\"notes\":\"From Mathura Junction take a rickshaw to Janmabhoomi (~10-20 min)\"\x7d\n  ]").length = 205 := rfl

/-- The brace scan of the lazy marker group stops exactly at the closing
brace of the sample object. -/
theorem candAux_sample : candAux (sampleInner ++ sampleTailEM) 0 = some 2050 := by
  simp only [sampleInner, sT1, sT2, sT3, sT4, sT5, sT6, sT7, sT8, List.append_assoc]
  rw [candAux_append _ _ _ (by rfl)]
  rw [candAux_append _ _ _ (by rfl)]
  rw [candAux_append _ _ _ (by rfl)]
  rw [candAux_append _ _ _ (by rfl)]
  rw [candAux_append _ _ _ (by rfl)]
  rw [candAux_append _ _ _ (by rfl)]
  rw [candAux_append _ _ _ (by rfl)]
  rw [candAux_append _ _ _ (by rfl)]
  rw [show ∀ k, candAux (s2l "\n\x7d" ++ sampleTailEM) k = some (k + 1) from fun k => rfl]
  simp only [sampChunkLen0, sampChunkLen1, sampChunkLen2, sampChunkLen3, sampChunkLen4,
    sampChunkLen5, sampChunkLen6, sampChunkLen7]

/-- The length of the embedded sample object text. -/
theorem sampleInner_len : sampleInner.length = 2051 := by
  simp only [sampleInner, sT1, sT2, sT3, sT4, sT5, sT6, sT7, sT8, List.length_append,
    sampChunkLen1, sampChunkLen2, sampChunkLen3, sampChunkLen4, sampChunkLen5,
    sampChunkLen6, sampChunkLen7]
  rfl

/-- The candidate the marker search captures is exactly the sample object
text. -/
theorem candSearch_sample :
    candSearch (sampleInner ++ sampleTailEM) = some sampleInner := by
  unfold candSearch
  rw [candAux_sample]
  rw [show Option.map (fun k => (sampleInner ++ sampleTailEM).take (k + 1)) (some 2050) =
    some ((sampleInner ++ sampleTailEM).take (2050 + 1)) from rfl]
  rw [show (2050 + 1 : Nat) = sampleInner.length from by rw [sampleInner_len]]
  rw [List.take_left]


/-- The marker pattern matches the sample payload at its start and captures
exactly the embedded object text. -/
theorem markerFind_sample : markerFind SAMPLE_GEMINI_RAW = some sampleInner := by
  have hdec : SAMPLE_GEMINI_RAW =
      Char.ofNat 61 :: (s2l "==JSON_START===\n" ++ sampleInner ++ sampleTailEM) := rfl
  have hu : ((Char.ofNat 61 :: (s2l "==JSON_START===\n" ++ sampleInner ++ sampleTailEM)).drop
      16).dropWhile isPyWs = Char.ofNat 123 :: (sT1 ++ sampleTailEM) := rfl
  rw [hdec]
  refine markerFind_eq_of _ _ _ _ rfl hu ?_
  have hback : Char.ofNat 123 :: (sT1 ++ sampleTailEM) = sampleInner ++ sampleTailEM := rfl
  rw [hback]
  exact candSearch_sample

/-- The sample object parse, advanced past field 1. -/
theorem sampleStep1 :
    parseJObj 4109 sT1 (sampleFields.take 0) =
      parseJObj 4108 sT2 (sampleFields.take 1) := rfl

/-- The sample object parse, advanced past field 2. -/
theorem sampleStep2 :
    parseJObj 4108 sT2 (sampleFields.take 1) =
      parseJObj 4107 sT3 (sampleFields.take 2) := rfl

/-- The sample object parse, advanced past field 3. -/
theorem sampleStep3 :
    parseJObj 4107 sT3 (sampleFields.take 2) =
      parseJObj 4106 sT4 (sampleFields.take 3) := rfl

/-- The sample object parse, advanced past field 4. -/
theorem sampleStep4 :
    parseJObj 4106 sT4 (sampleFields.take 3) =
      parseJObj 4105 sT5 (sampleFields.take 4) := rfl

/-- The sample object parse, advanced past field 5. -/
theorem sampleStep5 :
    parseJObj 4105 sT5 (sampleFields.take 4) =
      parseJObj 4104 sT6 (sampleFields.take 5) := rfl

/-- The sample object parse, advanced past field 6. -/
theorem sampleStep6 :
    parseJObj 4104 sT6 (sampleFields.take 5) =
      parseJObj 4103 sT7 (sampleFields.take 6) := rfl

/-- The sample object parse, completed through the last field and the
closing brace. -/
theorem sampleStep7 : parseJObj 4103 sT7 (sampleFields.take 6) =
    some (jobj sampleFields, []) := rfl

/-- `json.loads` on the embedded sample object text. -/
theorem loads_sample : json_loads sampleInner = some sampleParsed := by
  have h0 : parseJVal (2 * sampleInner.length + 8) sampleInner =
      parseJObj 4109 sT1 (sampleFields.take 0) := by
    rw [sampleInner_len]
    exact rfl
  rw [json_loads, h0, sampleStep1, sampleStep2, sampleStep3, sampleStep4, sampleStep5,
    sampleStep6, sampleStep7]
  rfl

/-- `extract_json_from_text` recovers exactly the parsed sample object from
the sample payload. -/
theorem sample_extract : extract_json_from_text SAMPLE_GEMINI_RAW = some sampleParsed := by
  have hfence : fenceStrip SAMPLE_GEMINI_RAW = SAMPLE_GEMINI_RAW :=
    fenceStrip_of_not_fence _ rfl
  have hlast : SAMPLE_GEMINI_RAW.getLast? = some (Char.ofNat 61) := by
    rw [SAMPLE_GEMINI_RAW, List.getLast?_append, List.getLast?_append]
    rfl
  have hstrip : pyStrip SAMPLE_GEMINI_RAW = SAMPLE_GEMINI_RAW :=
    pyStrip_of_ends _ (Char.ofNat 61) (Char.ofNat 61) rfl (by decide) hlast (by decide)
  rw [extract_json_from_text]
  rw [if_neg (by rw [show SAMPLE_GEMINI_RAW.isEmpty = false from rfl]; simp)]
  rw [hfence, hstrip]
  have htry : tryParseCand sampleInner = some sampleParsed := by
    rw [tryParseCand, loads_sample]
  simp only [markerFind_sample, htry]


/-! ### List prefix and suffix helpers -/

/-- A list is a Boolean prefix of itself followed by anything. -/
theorem isPrefixOf_append_self (p x : List Char) : p.isPrefixOf (p ++ x) = true := by
  induction p with
  | nil => simp [List.isPrefixOf]
  | cons c cs ih => simp [List.isPrefixOf, ih]

/-- Decompose a Boolean prefix. -/
theorem exists_of_isPrefixOf (p l : List Char) (h : p.isPrefixOf l = true) :
    ∃ x, l = p ++ x := by
  induction p generalizing l with
  | nil => exact ⟨l, rfl⟩
  | cons c cs ih =>
      cases l with
      | nil => cases h
      | cons a as =>
          simp only [List.isPrefixOf, Bool.and_eq_true, beq_iff_eq] at h
          obtain ⟨x, hx⟩ := ih as h.2
          exact ⟨x, by rw [h.1.symm, List.cons_append, ← hx]⟩

/-- A case-insensitive prefix extends along an equal-length prefix. -/
theorem isPrefixOfCI_append (p a b : List Char) (hlen : a.length = p.length)
    (h : isPrefixOfCI p a = true) : isPrefixOfCI p (a ++ b) = true := by
  induction p generalizing a with
  | nil => rfl
  | cons c cs ih =>
      cases a with
      | nil => simp at hlen
      | cons x xs =>
          simp only [isPrefixOfCI, Bool.and_eq_true] at h ⊢
          exact ⟨h.1, ih xs (by simpa using hlen) h.2⟩

/-- A list is a Boolean suffix of anything followed by itself. -/
theorem isSuffixOf_append_self (p x : List Char) : p.isSuffixOf (x ++ p) = true := by
  simp only [List.isSuffixOf, List.reverse_append]
  exact isPrefixOf_append_self _ _

/-- A run ending in a newline has no trailing triple backtick. -/
theorem notSuffix_ticks_newline (y : List Char) :
    (s2l "```").isSuffixOf (y ++ ['\n']) = false := by
  simp only [List.isSuffixOf, List.reverse_append]
  rfl

/-- Decompose a Boolean suffix. -/
theorem exists_of_isSuffixOf (p l : List Char) (h : p.isSuffixOf l = true) :
    ∃ x, l = x ++ p := by
  simp only [List.isSuffixOf] at h
  obtain ⟨x, hx⟩ := exists_of_isPrefixOf _ _ h
  refine ⟨x.reverse, ?_⟩
  have := congrArg List.reverse hx
  simpa [List.reverse_append] using this

/-! ### The fence stripper, resolved (claim C9) -/

/-- A case-insensitive prefix is no longer than its host. -/
theorem isPrefixOfCI_length (p l : List Char) (h : isPrefixOfCI p l = true) :
    p.length ≤ l.length := by
  induction p generalizing l with
  | nil => simp
  | cons c cs ih =>
      cases l with
      | nil => cases h
      | cons a as =>
          simp only [isPrefixOfCI, Bool.and_eq_true] at h
          simpa using ih as h.2

/-- A case-insensitive prefix holds of the equally long initial segment. -/
theorem isPrefixOfCI_take (p l : List Char) (h : isPrefixOfCI p l = true) :
    isPrefixOfCI p (l.take p.length) = true := by
  induction p generalizing l with
  | nil => rfl
  | cons c cs ih =>
      cases l with
      | nil => cases h
      | cons a as =>
          simp only [isPrefixOfCI, Bool.and_eq_true] at h
          simpa [isPrefixOfCI] using ⟨h.1, ih as h.2⟩

/-- The closing-fence step on a wrapped tail captures the inner text. -/
theorem fenceClose_wrapped (inner nl : List Char) (hnl : nl = [] ∨ nl = ['\n']) :
    fenceClose (inner ++ s2l "```" ++ nl) = some (pyStrip inner) := by
  unfold fenceClose
  rcases hnl with hnl | hnl
  · subst hnl
    rw [List.append_nil, isSuffixOf_append_self]
    simp only [if_true]
    congr 1
    rw [show (inner ++ s2l "```").length - 3 = inner.length from by
      simp [List.length_append, s2l]]
    rw [List.take_left]
  · subst hnl
    rw [if_neg (by rw [show inner ++ s2l "```" ++ ['\n'] = (inner ++ s2l "```") ++ ['\n'] from
      by simp [List.append_assoc], notSuffix_ticks_newline]; simp)]
    rw [show inner ++ s2l "```" ++ ['\n'] = inner ++ (s2l "```" ++ ['\n']) from by
      simp [List.append_assoc]]
    rw [isSuffixOf_append_self]
    simp only [if_true]
    congr 1
    rw [show (inner ++ (s2l "```" ++ ['\n'])).length - 4 = inner.length from by
      simp [List.length_append, s2l]]
    rw [List.take_left]

/-- A successful closing-fence step exhibits the tail shape. -/
theorem fenceClose_shape (r1 g : List Char) (h : fenceClose r1 = some g) :
    ∃ inner nl, (nl = [] ∨ nl = ['\n']) ∧ r1 = inner ++ s2l "```" ++ nl := by
  unfold fenceClose at h
  by_cases h3 : (s2l "```").isSuffixOf r1 = true
  · obtain ⟨x, hx⟩ := exists_of_isSuffixOf _ _ h3
    exact ⟨x, [], Or.inl rfl, by rw [hx, List.append_nil]⟩
  · rw [Bool.not_eq_true] at h3
    rw [h3] at h
    simp only [Bool.false_eq_true, if_false] at h
    by_cases h4 : (s2l "```" ++ ['\n']).isSuffixOf r1 = true
    · obtain ⟨x, hx⟩ := exists_of_isSuffixOf _ _ h4
      exact ⟨x, ['\n'], Or.inr rfl, by rw [hx]; simp [List.append_assoc]⟩
    · rw [Bool.not_eq_true] at h4
      rw [h4] at h
      simp at h

/-- The fence group on a wrapped string, tagged case. -/
theorem fenceGroup_wrapped (tag inner nl : List Char) (htag : fenceTagOk tag = true)
    (hnl : nl = [] ∨ nl = ['\n'])
    (huntag : tag = [] → isPrefixOfCI (s2l "json") (inner ++ s2l "```" ++ nl) = false) :
    fenceGroup (s2l "```" ++ tag ++ inner ++ s2l "```" ++ nl) = some (pyStrip inner) := by
  unfold fenceGroup
  rw [show s2l "```" ++ tag ++ inner ++ s2l "```" ++ nl =
    s2l "```" ++ (tag ++ (inner ++ s2l "```" ++ nl)) from by simp [List.append_assoc]]
  rw [isPrefixOf_append_self]
  simp only [if_true]
  rw [show (s2l "```" ++ (tag ++ (inner ++ s2l "```" ++ nl))).drop 3 =
    tag ++ (inner ++ s2l "```" ++ nl) from by
      rw [show (3 : Nat) = (s2l "```").length from rfl]
      exact List.drop_left _ _]
  simp only [fenceTagOk, Bool.or_eq_true, Bool.and_eq_true, List.isEmpty_iff,
    decide_eq_true_eq] at htag
  rcases htag with htagNil | ⟨hlen4, hci⟩
  · subst htagNil
    rw [List.nil_append]
    rw [huntag rfl]
    simp only [Bool.false_eq_true, if_false]
    exact fenceClose_wrapped inner nl hnl
  · rw [isPrefixOfCI_append _ _ _ (by rw [hlen4]; rfl) hci]
    simp only [if_true]
    rw [show (tag ++ (inner ++ s2l "```" ++ nl)).drop 4 = inner ++ s2l "```" ++ nl from by
      rw [← hlen4]; exact List.drop_left _ _]
    exact fenceClose_wrapped inner nl hnl

/-- `strip_code_fences` on a wrapped string is the trimmed inner text. -/
theorem fenceStrip_wrapped (tag inner nl : List Char) (htag : fenceTagOk tag = true)
    (hnl : nl = [] ∨ nl = ['\n'])
    (huntag : tag = [] → isPrefixOfCI (s2l "json") (inner ++ s2l "```" ++ nl) = false) :
    fenceStrip (s2l "```" ++ tag ++ inner ++ s2l "```" ++ nl) = pyStrip inner := by
  unfold fenceStrip
  rw [fenceGroup_wrapped tag inner nl htag hnl huntag]

/-- A successful fence match exhibits the wrapped shape. -/
theorem fenceWrapped_of_group (t g : List Char) (h : fenceGroup t = some g) :
    fenceWrapped t := by
  unfold fenceGroup at h
  by_cases hpre : (s2l "```").isPrefixOf t = true
  · rw [hpre] at h
    simp only [if_true] at h
    obtain ⟨r, hr⟩ := exists_of_isPrefixOf _ _ hpre
    subst hr
    rw [show (3 : Nat) = (s2l "```").length from rfl, List.drop_left] at h
    by_cases hci : isPrefixOfCI (s2l "json") r = true
    · rw [hci] at h
      simp only [if_true] at h
      have hle : 4 ≤ r.length := by
        have hx := isPrefixOfCI_length (s2l "json") r hci
        rw [show (s2l "json").length = 4 from rfl] at hx
        exact hx
      have hlen : (r.take 4).length = 4 := by simp [List.length_take, hle]
      rcases fenceClose_shape (r.drop 4) g h with ⟨inner, nl, hnl, hdec⟩
      refine ⟨r.take 4, inner, nl, ?_, hnl, fun hx => ?_, ?_⟩
      · simp only [fenceTagOk, Bool.or_eq_true, Bool.and_eq_true, decide_eq_true_eq]
        exact Or.inr ⟨by simp [hlen], isPrefixOfCI_take (s2l "json") r hci⟩
      · rw [hx] at hlen
        simp at hlen
      · conv_lhs => rw [show r = r.take 4 ++ r.drop 4 from (List.take_append_drop _ _).symm]
        rw [hdec]
        simp [List.append_assoc]
    · rw [Bool.not_eq_true] at hci
      rw [hci] at h
      simp only [Bool.false_eq_true, if_false] at h
      rcases fenceClose_shape r g h with ⟨inner, nl, hnl, hdec⟩
      refine ⟨[], inner, nl, rfl, hnl, fun _ => ?_, ?_⟩
      · rw [show inner ++ s2l "```" ++ nl = r from by rw [hdec]]
        exact hci
      · rw [hdec]
        simp [List.append_assoc]
  · rw [Bool.not_eq_true] at hpre
    rw [hpre] at h
    simp at h


/-! ## Claim C9 -/

/-- C9: for every string entirely wrapped in a triple-backtick fence
(optionally tagged `json` in any letter case, optionally carrying the single
trailing newline that Python's `$` anchor tolerates), `strip_code_fences`
returns the inner text with outer whitespace trimmed; every other string,
and every non-string value, is returned unchanged. -/
theorem c9_strip_code_fences_spec :
    (∀ tag inner nl, fenceTagOk tag = true → (nl = [] ∨ nl = ['\n']) →
      (tag = [] → isPrefixOfCI (s2l "json") (inner ++ s2l "```" ++ nl) = false) →
      strip_code_fences (jstr (s2l "```" ++ tag ++ inner ++ s2l "```" ++ nl)) =
        jstr (pyStrip inner)) ∧
    (∀ t : List Char, ¬ fenceWrapped t → strip_code_fences (jstr t) = jstr t) ∧
    (∀ v : JsonV, isStrV v = false → strip_code_fences v = v) := by
  refine ⟨fun tag inner nl h1 h2 h3 => ?_, fun t hw => ?_, fun v hv => ?_⟩
  · show jstr (fenceStrip _) = _
    rw [fenceStrip_wrapped tag inner nl h1 h2 h3]
  · show jstr (fenceStrip t) = _
    unfold fenceStrip
    cases hg : fenceGroup t with
    | none => rfl
    | some g => exact absurd (fenceWrapped_of_group t g hg) hw
  · cases v <;> first | rfl | simp [isStrV] at hv

/-- C9 witness: a concrete `json`-tagged fenced string is stripped and
trimmed. -/
theorem c9_strip_code_fences_spec_witness :
    strip_code_fences (jstr (s2l "```" ++ s2l "json" ++ s2l " hello " ++ s2l "```" ++ [])) =
      jstr (pyStrip (s2l " hello ")) ∧ pyStrip (s2l " hello ") = s2l "hello" := by
  refine ⟨c9_strip_code_fences_spec.1 (s2l "json") (s2l " hello ") [] (by decide)
    (Or.inl rfl) (fun h => absurd h (by decide)), rfl⟩

/-! ### C6: the shape of `extract_json_from_text` results

Every candidate that reaches a parse attempt starts with an opening brace, a
successful `json.loads` of such a text is an object, and the unescape retry
preserves the leading brace; so the function can only produce an object or
`None`.  And without any `\x7b` in the input no candidate exists at all. -/

/-- A successful `parseJObj` always yields an object. -/
theorem parseJObj_is_obj : ∀ (fuel : Nat) (l : List Char)
    (acc : List (List Char × JsonV)) (v : JsonV) (r : List Char),
    parseJObj fuel l acc = some (v, r) → ∃ kvs, v = jobj kvs := by
  intro fuel
  induction fuel with
  | zero => intro l acc v r h; rw [parseJObj] at h; exact Option.noConfusion h
  | succ n ih =>
      intro l acc v r h
      rw [parseJObj] at h
      repeat' split at h
      all_goals first
        | exact Option.noConfusion h
        | exact ih _ _ _ _ h
        | (simp only [Option.some.injEq, Prod.mk.injEq] at h; exact ⟨_, h.1.symm⟩)

/-- `parseJVal` on a text that starts with an opening brace goes to the
object branch. -/
theorem parseJVal_brace (fuel : Nat) (b : List Char) :
    parseJVal (fuel + 1) ('{' :: b) =
      (match b.dropWhile isJsonWs with
        | '}' :: r2 => some (jobj [], r2)
        | r2 => parseJObj fuel r2 []) := rfl

/-- A successful `json.loads` of a text that starts with an opening brace is
an object. -/
theorem json_loads_brace_obj (b : List Char) (v : JsonV)
    (h : json_loads ('{' :: b) = some v) : ∃ kvs, v = jobj kvs := by
  unfold json_loads at h
  rw [show 2 * ('{' :: b).length + 8 = (2 * b.length + 9) + 1 from by
        simp [List.length_cons]; omega] at h
  rw [parseJVal_brace] at h
  split at h
  · rename_i v0 r heq
    split at h
    · simp only [Option.some.injEq] at h
      subst h
      split at heq
      · simp only [Option.some.injEq, Prod.mk.injEq] at heq
        exact ⟨[], heq.1.symm⟩
      · exact parseJObj_is_obj _ _ _ _ _ heq
    · exact Option.noConfusion h
  · exact Option.noConfusion h

/-- `utf8Encode` of a text with a leading brace starts with the brace byte. -/
theorem utf8Encode_brace (b : List Char) :
    utf8Encode ('{' :: b) = 123 :: utf8Encode b := rfl

/-- `uEsc` on a leading non-backslash byte keeps it as a Latin-1 character. -/
theorem uEsc_brace (fuel : Nat) (rest : List Nat) :
    uEsc (fuel + 1) (123 :: rest) =
      (uEsc fuel rest).map (fun tl => Char.ofNat 123 :: tl) := rfl

/-- The unescape retry keeps a leading opening brace. -/
theorem pyUnicodeEscape_brace (b cleaned : List Char)
    (h : pyUnicodeEscape ('{' :: b) = some cleaned) :
    ∃ b2, cleaned = '{' :: b2 := by
  unfold pyUnicodeEscape at h
  rw [utf8Encode_brace, List.length_cons, uEsc_brace] at h
  cases hu : uEsc ((utf8Encode b).length + 1) (utf8Encode b) with
  | none => rw [hu] at h; exact Option.noConfusion h
  | some tl =>
      rw [hu, Option.map_some'] at h
      injection h with h1
      exact ⟨tl, h1.symm⟩

/-- A candidate that starts with an opening brace parses to nothing or to an
object, through the retry as well. -/
theorem tryParseCand_obj (b : List Char) (v : JsonV)
    (h : tryParseCand ('{' :: b) = some v) : ∃ kvs, v = jobj kvs := by
  unfold tryParseCand at h
  split at h
  · rename_i v1 heq
    simp only [Option.some.injEq] at h
    subst h
    exact json_loads_brace_obj b v1 heq
  · split at h
    · rename_i cleaned heq2
      obtain ⟨b2, rfl⟩ := pyUnicodeEscape_brace b cleaned heq2
      exact json_loads_brace_obj b2 v h
    · exact Option.noConfusion h

/-- The group found at a viable marker start begins with the opening brace,
which also occurs in the scanned text. -/
theorem markerTryAt_obj (t cand : List Char)
    (h : markerTryAt t = some cand) :
    (∃ b2, cand = '{' :: b2) ∧ '{' ∈ t := by
  unfold markerTryAt at h
  split at h
  · split at h
    · rename_i tl heq
      rw [heq] at h
      unfold candSearch at h
      cases hca : candAux ('{' :: tl) 0 with
      | none => rw [hca] at h; exact Option.noConfusion h
      | some k =>
          rw [hca, Option.map_some'] at h
          injection h with h1
          have hmem : '{' ∈ (t.drop 16).dropWhile isPyWs := by
            rw [heq]; exact List.mem_cons_self _ _
          refine ⟨⟨tl.take k, ?_⟩, ?_⟩
          · rw [← h1, List.take_succ_cons]
          · exact List.drop_subset _ _
              ((List.dropWhile_suffix isPyWs).sublist.subset hmem)
    · exact Option.noConfusion h
  · exact Option.noConfusion h

/-- The marker-regex group begins with an opening brace that occurs in the
text. -/
theorem markerFind_obj : ∀ (t cand : List Char), markerFind t = some cand →
    (∃ b2, cand = '{' :: b2) ∧ '{' ∈ t := by
  intro t
  induction t with
  | nil => intro cand h; exact Option.noConfusion h
  | cons c rest ih =>
      intro cand h
      rw [markerFind] at h
      split at h
      · rename_i cand2 heq
        injection h with h1
        subst h1
        exact markerTryAt_obj _ _ heq
      · obtain ⟨hshape, hmem⟩ := ih _ h
        exact ⟨hshape, List.mem_cons_of_mem _ hmem⟩

/-- `str.find` through `findIdx?` never answers below its start index. -/
theorem findIdx_ge_start : ∀ (l : List Char) (p : Char → Bool) (s i : Nat),
    List.findIdx? p l s = some i → s ≤ i := by
  intro l
  induction l with
  | nil => intro p s i h; rw [List.findIdx?_nil] at h; exact Option.noConfusion h
  | cons c cs ih =>
      intro p s i h
      rw [List.findIdx?_cons] at h
      split at h
      · injection h with h1
        subst h1
        exact Nat.le_refl _
      · exact Nat.le_of_succ_le (ih p (s + 1) i h)

/-- Dropping up to the index `str.find("\x7b")` answers exposes the brace. -/
theorem findIdx_brace_drop : ∀ (t : List Char) (s i : Nat),
    List.findIdx? (fun c => decide (c = '{')) t s = some i →
    ∃ tl, t.drop (i - s) = '{' :: tl := by
  intro t
  induction t with
  | nil => intro s i h; rw [List.findIdx?_nil] at h; exact Option.noConfusion h
  | cons c cs ih =>
      intro s i h
      rw [List.findIdx?_cons] at h
      split at h
      · rename_i hc
        injection h with h1
        subst h1
        rw [Nat.sub_self, List.drop_zero]
        exact ⟨cs, by rw [of_decide_eq_true hc]⟩
      · have hs : s + 1 ≤ i := findIdx_ge_start cs _ (s + 1) i h
        obtain ⟨tl, hd⟩ := ih (s + 1) i h
        refine ⟨tl, ?_⟩
        rw [show i - s = (i - (s + 1)) + 1 from by omega, List.drop_succ_cons]
        exact hd

/-- The balanced-brace scan produces nothing or an object. -/
theorem braceScanPart_obj (t : List Char) (v : JsonV)
    (h : braceScanPart t = some v) : ∃ kvs, v = jobj kvs := by
  unfold braceScanPart at h
  split at h
  · exact Option.noConfusion h
  · rename_i first hfi
    split at h
    · exact Option.noConfusion h
    · obtain ⟨tl, hd⟩ := findIdx_brace_drop t 0 first hfi
      rw [Nat.sub_zero] at hd
      rw [hd, List.take_succ_cons] at h
      exact tryParseCand_obj _ _ h

/-- `.strip()` only removes characters. -/
theorem mem_of_mem_pyStrip (c : Char) (l : List Char) (h : c ∈ pyStrip l) :
    c ∈ l := by
  unfold pyStrip at h
  rw [List.mem_reverse] at h
  have h2 := (List.dropWhile_suffix isPyWs).sublist.subset h
  rw [List.mem_reverse] at h2
  exact (List.dropWhile_suffix isPyWs).sublist.subset h2

/-- The closing-fence step only removes characters. -/
theorem mem_of_mem_fenceClose (r1 g : List Char) (hg : fenceClose r1 = some g)
    (c : Char) (h : c ∈ g) : c ∈ r1 := by
  unfold fenceClose at hg
  split at hg
  · injection hg with h1
    subst h1
    exact List.take_subset _ _ (mem_of_mem_pyStrip c _ h)
  · split at hg
    · injection hg with h1
      subst h1
      exact List.take_subset _ _ (mem_of_mem_pyStrip c _ h)
    · exact Option.noConfusion hg

/-- The fence-matching step only removes characters. -/
theorem mem_of_mem_fenceGroup (t g : List Char) (hg : fenceGroup t = some g)
    (c : Char) (h : c ∈ g) : c ∈ t := by
  unfold fenceGroup at hg
  split at hg
  · have hg2 : fenceClose (if isPrefixOfCI (s2l "json") (t.drop 3) then
        (t.drop 3).drop 4 else t.drop 3) = some g := hg
    have hmem := mem_of_mem_fenceClose _ g hg2 c h
    split at hmem
    · exact List.drop_subset _ _ (List.drop_subset _ _ hmem)
    · exact List.drop_subset _ _ hmem
  · exact Option.noConfusion hg

/-- `strip_code_fences` only removes characters. -/
theorem mem_of_mem_fenceStrip (t : List Char) (c : Char)
    (h : c ∈ fenceStrip t) : c ∈ t := by
  unfold fenceStrip at h
  split at h
  · rename_i g hg
    exact mem_of_mem_fenceGroup t g hg c h
  · exact h

/-- A successful extraction is an object. -/
theorem extract_obj (t : List Char) (v : JsonV)
    (h : extract_json_from_text t = some v) : ∃ kvs, v = jobj kvs := by
  unfold extract_json_from_text at h
  split at h
  · exact Option.noConfusion h
  · split at h
    · rename_i cand hm
      split at h
      · rename_i w hw
        injection h with h1
        subst h1
        obtain ⟨b2, rfl⟩ := (markerFind_obj _ _ hm).1
        exact tryParseCand_obj _ _ hw
      · exact braceScanPart_obj _ _ h
    · exact braceScanPart_obj _ _ h

/-- Without an opening brace there is no candidate, so no extraction. -/
theorem extract_none_of_no_brace (t : List Char) (hn : '{' ∉ t) :
    extract_json_from_text t = none := by
  have hn2 : '{' ∉ pyStrip (fenceStrip t) := fun hm =>
    hn (mem_of_mem_fenceStrip t _ (mem_of_mem_pyStrip _ _ hm))
  unfold extract_json_from_text
  split
  · rfl
  · cases hm : markerFind (pyStrip (fenceStrip t)) with
    | some cand => exact absurd (markerFind_obj _ _ hm).2 hn2
    | none =>
        show braceScanPart (pyStrip (fenceStrip t)) = none
        unfold braceScanPart
        rw [show List.findIdx? (fun c => decide (c = '{'))
              (pyStrip (fenceStrip t)) 0 = none from
            List.findIdx?_eq_none_iff.2 (fun x hx => by
              rw [decide_eq_false_iff_not]
              exact fun he => hn2 (he ▸ hx))]

/-- C6: for every input, `extract_json_from_text` returns either a JSON
object or nothing — every candidate handed to a parse attempt starts with an
opening brace, so a successful parse is an object, and failed attempts fall
through to `None`; in particular a text without any opening brace yields
nothing. -/
theorem c6_extract_json_obj_or_none :
    (∀ t : List Char, extract_json_from_text t = none ∨
        ∃ kvs, extract_json_from_text t = some (jobj kvs)) ∧
    (∀ t : List Char, '{' ∉ t → extract_json_from_text t = none) := by
  constructor
  · intro t
    cases hx : extract_json_from_text t with
    | none => exact Or.inl rfl
    | some v =>
        obtain ⟨kvs, rfl⟩ := extract_obj t v hx
        exact Or.inr ⟨kvs, rfl⟩
  · exact extract_none_of_no_brace

/-- C6 witness: a brace-free text extracts to nothing. -/
theorem c6_extract_json_obj_or_none_witness :
    ('{' ∉ s2l "no json here") ∧
      extract_json_from_text (s2l "no json here") = none :=
  ⟨by decide, c6_extract_json_obj_or_none.2 (s2l "no json here") (by decide)⟩


/-! ### C2: the accepted input forms of the normalizer -/

/-- Flattening the per-element normalizer over a list of mappings is the
identity. -/
theorem normItem_flatten_of_dicts : ∀ vs : List JsonV,
    vs.all isDict = true → (vs.map normItem).flatten = vs := by
  intro vs
  induction vs with
  | nil => intro h; rfl
  | cons v rest ih =>
      intro h
      rw [List.all_cons, Bool.and_eq_true] at h
      obtain ⟨h1, h2⟩ := h
      cases v
      case jobj kvs =>
        rw [List.map_cons, List.flatten_cons,
          show normItem (jobj kvs) = [jobj kvs] from rfl, ih h2]
        rfl
      all_goals exact Bool.noConfusion h1

/-- A string whose direct parse yields a list normalizes as that list. -/
theorem normalize_of_loads (s : List Char) (vs : List JsonV)
    (hs : json_loads s = some (jarr vs)) :
    normalize_visit_sequence (jstr s) = (vs.map normItem).flatten := by
  have hne : s ≠ [] := by
    intro he
    rw [he, show json_loads [] = none from rfl] at hs
    exact Option.noConfusion hs
  have htr : pyTruthy (jstr s) = true := by
    simp [pyTruthy, List.isEmpty_iff, hne]
  unfold normalize_visit_sequence
  rw [if_neg (fun h => h htr)]
  show (match normDict (normStr s) with
    | jarr items => (items.map normItem).flatten
    | _ => []) = _
  unfold normStr
  rw [hs]
  rfl

/-- A list input normalizes by the per-element loop alone. -/
theorem normalize_of_list (vs : List JsonV) :
    normalize_visit_sequence (jarr vs) = (vs.map normItem).flatten := by
  cases vs with
  | nil => rfl
  | cons v rest =>
      unfold normalize_visit_sequence
      rw [if_neg (fun h => h rfl)]
      rfl

/-- A mapping input normalizes through its `visit_sequence` field. -/
theorem normalize_of_dict_vs (kvs : List (List Char × JsonV)) (vs : List JsonV)
    (hv : pyGet (jobj kvs) (s2l "visit_sequence") = jarr vs) (hne : vs ≠ []) :
    normalize_visit_sequence (jobj kvs) = (vs.map normItem).flatten := by
  have hk : kvs ≠ [] := by
    intro he
    subst he
    rw [show pyGet (jobj []) (s2l "visit_sequence") = jnull from rfl] at hv
    exact JsonV.noConfusion hv
  have htr : pyTruthy (jobj kvs) = true := by
    simp [pyTruthy, List.isEmpty_iff, hk]
  have hor : pyOr (jarr vs) (pyOr (pyGet (jobj kvs) (s2l "visits")) (jarr [])) =
      jarr vs := by
    unfold pyOr
    rw [if_pos (show (pyTruthy (jarr vs) = true) from by
      simp [pyTruthy, List.isEmpty_iff, hne])]
  unfold normalize_visit_sequence
  rw [if_neg (fun h => h htr)]
  show (match pyOr (pyGet (jobj kvs) (s2l "visit_sequence"))
      (pyOr (pyGet (jobj kvs) (s2l "visits")) (jarr [])) with
    | jarr items => (items.map normItem).flatten
    | _ => []) = _
  rw [hv, hor]

/-- A mapping with neither `visit_sequence` nor `visits` normalizes to the
empty list. -/
theorem normalize_of_dict_none (kvs : List (List Char × JsonV))
    (h1 : objLookup kvs (s2l "visit_sequence") = none)
    (h2 : objLookup kvs (s2l "visits") = none) :
    normalize_visit_sequence (jobj kvs) = [] := by
  by_cases hk : kvs = []
  · subst hk; rfl
  · have htr : pyTruthy (jobj kvs) = true := by
      simp [pyTruthy, List.isEmpty_iff, hk]
    unfold normalize_visit_sequence
    rw [if_neg (fun h => h htr)]
    show (match pyOr ((objLookup kvs (s2l "visit_sequence")).getD jnull)
        (pyOr ((objLookup kvs (s2l "visits")).getD jnull) (jarr [])) with
      | jarr items => (items.map normItem).flatten
      | _ => []) = _
    rw [h1, h2]
    rfl

/-- C2 counterexample: a single mapping without a nested sequence normalizes
to the empty list, not to the one-element list holding it. -/
theorem c2_single_mapping_counterexample :
    normalize_visit_sequence (jobj [(s2l "order", jint 1)]) = [] ∧
    normalize_visit_sequence (jarr [jobj [(s2l "order", jint 1)]]) =
      [jobj [(s2l "order", jint 1)]] ∧
    ([] : List JsonV) ≠ [jobj [(s2l "order", jint 1)]] :=
  ⟨rfl, rfl, fun h => List.noConfusion h⟩

/-- C2 (amended): a `visit_sequence` given as a JSON-encoded string of a
list of mappings, or as the native list itself, normalizes to that same flat
list; a mapping input is instead looked up for a nested `visit_sequence` (or
`visits`) list — it never contributes itself, and yields the empty list when
neither field is present. -/
theorem c2_normalize_input_forms :
    (∀ (vs : List JsonV) (s : List Char), vs.all isDict = true →
        json_loads s = some (jarr vs) →
        normalize_visit_sequence (jstr s) = normalize_visit_sequence (jarr vs)) ∧
    (∀ vs : List JsonV, vs.all isDict = true →
        normalize_visit_sequence (jarr vs) = vs) ∧
    (∀ (kvs : List (List Char × JsonV)) (vs : List JsonV),
        pyGet (jobj kvs) (s2l "visit_sequence") = jarr vs → vs ≠ [] →
        vs.all isDict = true →
        normalize_visit_sequence (jobj kvs) = vs) ∧
    (∀ kvs : List (List Char × JsonV),
        objLookup kvs (s2l "visit_sequence") = none →
        objLookup kvs (s2l "visits") = none →
        normalize_visit_sequence (jobj kvs) = []) := by
  refine ⟨fun vs s _ hs => ?_, fun vs hall => ?_,
    fun kvs vs hv hne hall => ?_, normalize_of_dict_none⟩
  · rw [normalize_of_loads s vs hs, normalize_of_list vs]
  · rw [normalize_of_list vs, normItem_flatten_of_dicts vs hall]
  · rw [normalize_of_dict_vs kvs vs hv hne, normItem_flatten_of_dicts vs hall]

/-- C2 witness: a concrete one-mapping list, as a JSON string and as the
native list. -/
theorem c2_normalize_input_forms_witness :
    json_loads (s2l "[\x7b\"order\": 1\x7d]") =
      some (jarr [jobj [(s2l "order", jint 1)]]) ∧
    normalize_visit_sequence (jstr (s2l "[\x7b\"order\": 1\x7d]")) =
      normalize_visit_sequence (jarr [jobj [(s2l "order", jint 1)]]) :=
  ⟨rfl, c2_normalize_input_forms.1 [jobj [(s2l "order", jint 1)]]
    (s2l "[\x7b\"order\": 1\x7d]") rfl rfl⟩


/-! ### C3: the final sort and the node `order` field -/

/-- Inserting into a list sorted by key keeps it sorted by key. -/
theorem insPair_chain : ∀ (p : Int × JsonV) (qs : List (Int × JsonV)),
    List.Chain' (fun a b => a.1 ≤ b.1) qs →
    List.Chain' (fun a b => a.1 ≤ b.1) (insPair p qs) := by
  intro p qs
  induction qs with
  | nil => intro h; exact List.chain'_singleton p
  | cons q qs ih =>
      intro h
      rw [insPair]
      by_cases hle : p.1 ≤ q.1
      · rw [if_pos hle]
        exact List.chain'_cons.2 ⟨hle, h⟩
      · rw [if_neg hle]
        have h2 : List.Chain' (fun a b => a.1 ≤ b.1) qs := (List.chain'_cons'.1 h).2
        refine List.chain'_cons'.2 ⟨?_, ih h2⟩
        intro b hb
        cases qs with
        | nil =>
            simp only [insPair, List.head?, Option.mem_def, Option.some.injEq] at hb
            subst hb
            show q.1 ≤ p.1
            omega
        | cons r rs =>
            rw [insPair] at hb
            by_cases hle2 : p.1 ≤ r.1
            · rw [if_pos hle2] at hb
              simp only [List.head?, Option.mem_def, Option.some.injEq] at hb
              subst hb
              show q.1 ≤ p.1
              omega
            · rw [if_neg hle2] at hb
              simp only [List.head?, Option.mem_def, Option.some.injEq] at hb
              subst hb
              exact (List.chain'_cons'.1 h).1 r rfl

/-- The insertion sort sorts by key. -/
theorem insSortPairs_chain : ∀ ps : List (Int × JsonV),
    List.Chain' (fun a b => a.1 ≤ b.1) (insSortPairs ps) := by
  intro ps
  induction ps with
  | nil => exact List.chain'_nil
  | cons p ps ih => exact insPair_chain p _ ih

/-- Insertion only reorders. -/
theorem insPair_perm : ∀ (p : Int × JsonV) (qs : List (Int × JsonV)),
    (insPair p qs).Perm (p :: qs) := by
  intro p qs
  induction qs with
  | nil => exact List.Perm.refl _
  | cons q qs ih =>
      rw [insPair]
      by_cases hle : p.1 ≤ q.1
      · rw [if_pos hle]
      · rw [if_neg hle]
        exact (ih.cons q).trans (List.Perm.swap p q qs)

/-- The insertion sort is a permutation. -/
theorem insSortPairs_perm : ∀ ps : List (Int × JsonV),
    (insSortPairs ps).Perm ps := by
  intro ps
  induction ps with
  | nil => exact List.Perm.refl _
  | cons p ps ih => exact (insPair_perm p _).trans (ih.cons p)

/-- C3 counterexample: with an absent `order` next to a present one, the
sorted sequence renders with node orders `[1, 2, 1]`, which is not
ascending — absent orders sort with key `0`, not with their positional
index. -/
theorem c3_order_counterexample :
    sortVisitsPy [jobj [(s2l "order", jint 1)], jobj [], jobj []] =
      [jobj [], jobj [], jobj [(s2l "order", jint 1)]] ∧
    (buildNodes 6 [jobj [], jobj [], jobj [(s2l "order", jint 1)]]).map
        (fun r => r.2.2.map NodeV.order) = .ok [1, 2, 1] ∧
    ¬ List.Chain' (fun a b => a ≤ b) [(1 : Int), 2, 1] :=
  ⟨rfl, rfl, fun h =>
    absurd (List.chain'_cons.1 (List.chain'_cons.1 h).2).1 (by omega)⟩

/-- C3 (amended): when every element's `order` converts, the sequence passed
to rendering is the stable sort of the visits by key `int(x.get("order",
0))` — a permutation whose keys are nondecreasing; when any key raises, the
sequence is left in its incoming order.  A node's rendered `order` is the
converted field when present, the 1-based positional index when absent, and
an unconvertible value raises (no positional default). -/
theorem c3_sorted_orders :
    (∀ (vs : List JsonV) (pairs : List (Int × JsonV)),
        vs.mapM (fun v => (visitSortKey v).map (fun k => (k, v))) = some pairs →
        sortVisitsPy vs = (insSortPairs pairs).map Prod.snd ∧
        List.Chain' (fun p q => p.1 ≤ q.1) (insSortPairs pairs) ∧
        (insSortPairs pairs).Perm pairs) ∧
    (∀ vs : List JsonV,
        vs.mapM (fun v => (visitSortKey v).map (fun k => (k, v))) = none →
        sortVisitsPy vs = vs) ∧
    (∀ (cols colStep idx : Nat) (kvs : List (List Char × JsonV))
        (rest : List JsonV), objLookup kvs (s2l "order") = none →
        (buildNodesGo cols colStep idx (jobj kvs :: rest)).map
            (fun ns => ns.map NodeV.order) =
          (buildNodesGo cols colStep (idx + 1) rest).map
            (fun ns => Int.ofNat (idx + 1) :: ns.map NodeV.order)) ∧
    (∀ (cols colStep idx : Nat) (kvs : List (List Char × JsonV))
        (rest : List JsonV) (w : JsonV) (k : Int),
        objLookup kvs (s2l "order") = some w → pyToInt w = some k →
        (buildNodesGo cols colStep idx (jobj kvs :: rest)).map
            (fun ns => ns.map NodeV.order) =
          (buildNodesGo cols colStep (idx + 1) rest).map
            (fun ns => k :: ns.map NodeV.order)) ∧
    (∀ (cols colStep idx : Nat) (kvs : List (List Char × JsonV))
        (rest : List JsonV) (w : JsonV),
        objLookup kvs (s2l "order") = some w → pyToInt w = none →
        buildNodesGo cols colStep idx (jobj kvs :: rest) =
          .error (s2l "ValueError: invalid order value")) := by
  refine ⟨fun vs pairs hm => ⟨?_, insSortPairs_chain pairs, insSortPairs_perm pairs⟩,
    fun vs hm => ?_, fun cols colStep idx kvs rest hno => ?_,
    fun cols colStep idx kvs rest w k hw hk => ?_,
    fun cols colStep idx kvs rest w hw hk => ?_⟩
  · unfold sortVisitsPy
    rw [hm]
  · unfold sortVisitsPy
    rw [hm]
  · rw [buildNodesGo, hno]
    cases hrec : buildNodesGo cols colStep (idx + 1) rest with
    | error e => rfl
    | ok ns => rfl
  · rw [buildNodesGo, hw, show (some w).getD (jint (Int.ofNat (idx + 1))) = w from rfl, hk]
    cases hrec : buildNodesGo cols colStep (idx + 1) rest with
    | error e => rfl
    | ok ns => rfl
  · rw [buildNodesGo, hw, show (some w).getD (jint (Int.ofNat (idx + 1))) = w from rfl, hk]

/-- C3 witness: a two-element sort with both orders present, an absent
`order` defaulting to index 1, and a raising `order` value. -/
theorem c3_sorted_orders_witness :
    (sortVisitsPy [jobj [(s2l "order", jint 2)], jobj [(s2l "order", jint 1)]] =
      (insSortPairs [((2 : Int), jobj [(s2l "order", jint 2)]),
        ((1 : Int), jobj [(s2l "order", jint 1)])]).map Prod.snd) ∧
    ((buildNodesGo 1 0 0 [jobj []]).map (fun ns => ns.map NodeV.order) =
      (buildNodesGo 1 0 1 []).map (fun ns => Int.ofNat 1 :: ns.map NodeV.order)) ∧
    (buildNodesGo 1 0 0 [jobj [(s2l "order", jstr (s2l "x"))]] =
      .error (s2l "ValueError: invalid order value")) :=
  ⟨(c3_sorted_orders.1 [jobj [(s2l "order", jint 2)], jobj [(s2l "order", jint 1)]]
      [((2 : Int), jobj [(s2l "order", jint 2)]),
        ((1 : Int), jobj [(s2l "order", jint 1)])] rfl).1,
    c3_sorted_orders.2.2.1 1 0 0 [] [] rfl,
    c3_sorted_orders.2.2.2.2 1 0 0 [(s2l "order", jstr (s2l "x"))] []
      (jstr (s2l "x")) rfl rfl⟩


/-! ### C7: the rectangular grid layout -/

/-- The node loop on a well-formed sequence: one node per visit, with the
grid coordinates determined by the running index. -/
theorem buildNodesGo_ok : ∀ (vs : List JsonV) (cols colStep idx : Nat),
    (∀ v ∈ vs, ∃ kvs, v = jobj kvs ∧
      ∀ w, objLookup kvs (s2l "order") = some w → (pyToInt w).isSome = true) →
    ∃ ns : List NodeV, buildNodesGo cols colStep idx vs = .ok ns ∧
      ns.length = vs.length ∧
      ∀ (j : Nat) (hj : j < ns.length),
        (ns.get ⟨j, hj⟩).x =
          (if 1 < cols then 80 + ((idx + j) % cols) * colStep else 700) ∧
        (ns.get ⟨j, hj⟩).y =
          40 + ((idx + j) / cols) * 160 + ((idx + j) / cols) * 6 := by
  intro vs
  induction vs with
  | nil =>
      intro cols colStep idx _
      exact ⟨[], rfl, rfl, fun j hj => absurd hj (Nat.not_lt_zero j)⟩
  | cons v rest ih =>
      intro cols colStep idx hv
      obtain ⟨kvs, rfl, hconv⟩ := hv v (List.mem_cons_self v rest)
      obtain ⟨ns, hns, hlens, hcoord⟩ := ih cols colStep (idx + 1)
        (fun u hu => hv u (List.mem_cons_of_mem _ hu))
      have hord : ∃ ord, pyToInt ((objLookup kvs (s2l "order")).getD
          (jint (Int.ofNat (idx + 1)))) = some ord := by
        cases hl : objLookup kvs (s2l "order") with
        | none => exact ⟨Int.ofNat (idx + 1), rfl⟩
        | some w =>
            have hs := hconv w hl
            cases hpw : pyToInt w with
            | none => rw [hpw] at hs; exact Bool.noConfusion hs
            | some k => exact ⟨k, hpw⟩
      obtain ⟨ord, hord⟩ := hord
      have hstep : buildNodesGo cols colStep idx (jobj kvs :: rest) =
          .ok ({ order := ord
                 location_name := pyOr (pyGet (jobj kvs) (s2l "location_name"))
                   (pyOr (pyGet (jobj kvs) (s2l "name"))
                     (jstr (s2l "Place " ++ s2l (toString (idx + 1)))))
                 suggested_time := (objLookup kvs (s2l "suggested_time")).getD (jstr [])
                 estimated_duration :=
                   (objLookup kvs (s2l "estimated_duration")).getD (jstr [])
                 note := (objLookup kvs (s2l "note")).getD (jstr [])
                 latitude := pyGet (jobj kvs) (s2l "latitude")
                 longitude := pyGet (jobj kvs) (s2l "longitude")
                 nearby_food_recommendations :=
                   pyOr (pyGet (jobj kvs) (s2l "nearby_food_recommendations")) (jarr [])
                 x := if 1 < cols then 80 + (idx % cols) * colStep else 700
                 y := 40 + (idx / cols) * 160 + (idx / cols) * 6 } :: ns) := by
        rw [buildNodesGo, hord, hns]
      refine ⟨_, hstep, ?_, ?_⟩
      · rw [List.length_cons, hlens, List.length_cons]
      · intro j hj
        cases j with
        | zero =>
            refine ⟨?_, ?_⟩
            · show (if 1 < cols then 80 + (idx % cols) * colStep else 700) = _
              rw [Nat.add_zero]
            · show 40 + (idx / cols) * 160 + (idx / cols) * 6 = _
              rw [Nat.add_zero]
        | succ j2 =>
            have hj2 : j2 < ns.length := by
              rw [List.length_cons] at hj
              omega
            have hco := hcoord j2 hj2
            have harith : idx + (j2 + 1) = (idx + 1) + j2 := by omega
            rw [harith]
            exact hco

/-- C7: for a nonempty sequence of mappings with convertible orders and at
least one configured column, the layout is the rectangular grid
`cols = min(n, max_cols)`, `rows = ceil(n / cols)`, with the node of index
`j` at column `j % cols` and row `j // cols`, horizontally centered when the
grid has a single column. -/
theorem c7_grid_layout (maxCols : Nat) (vs : List JsonV) (cols : Nat)
    (hmc : 1 ≤ maxCols) (hne : vs ≠ [])
    (hcols : cols = min vs.length maxCols)
    (hv : ∀ v ∈ vs, ∃ kvs, v = jobj kvs ∧
      ∀ w, objLookup kvs (s2l "order") = some w → (pyToInt w).isSome = true) :
    ∃ ns : List NodeV,
      buildNodes maxCols vs = .ok (cols, (vs.length + cols - 1) / cols, ns) ∧
      ns.length = vs.length ∧
      ∀ (j : Nat) (hj : j < ns.length),
        (ns.get ⟨j, hj⟩).x = (if 1 < cols then
            80 + (j % cols) * (1240 / max 1 (cols - 1)) else 700) ∧
        (ns.get ⟨j, hj⟩).y = 40 + (j / cols) * 160 + (j / cols) * 6 := by
  have hlen : 1 ≤ vs.length := List.length_pos.2 hne
  have hmax : max 1 vs.length = vs.length := Nat.max_eq_right hlen
  have hc : layoutCols vs.length maxCols = cols := by
    rw [layoutCols, hmax, hcols]
  have hc1 : 1 ≤ cols := by
    rw [hcols]
    exact Nat.le_min.2 ⟨hlen, hmc⟩
  obtain ⟨ns, hns, hlens, hcoord⟩ := buildNodesGo_ok vs cols
    (if 1 < cols then 1240 / max 1 (cols - 1) else 0) 0 hv
  refine ⟨ns, ?_, hlens, ?_⟩
  · rw [buildNodes, hc,
      show layoutRows (max 1 vs.length) cols =
        some ((vs.length + cols - 1) / cols) from by
          rw [layoutRows, if_neg (by omega), hmax],
      hns]
    rfl
  · intro j hj
    have hco := hcoord j hj
    simp only [Nat.zero_add] at hco
    by_cases h2 : 1 < cols
    · simp only [if_pos h2] at hco ⊢
      exact hco
    · simp only [if_neg h2] at hco ⊢
      exact hco

/-- C7 witness: two mappings under the default six columns. -/
theorem c7_grid_layout_witness :
    ∃ ns : List NodeV,
      buildNodes 6 [jobj [], jobj []] = .ok (2, (2 + 2 - 1) / 2, ns) ∧
      ns.length = 2 ∧
      ∀ (j : Nat) (hj : j < ns.length),
        (ns.get ⟨j, hj⟩).x = (if 1 < 2 then
            80 + (j % 2) * (1240 / max 1 (2 - 1)) else 700) ∧
        (ns.get ⟨j, hj⟩).y = 40 + (j / 2) * 160 + (j / 2) * 6 :=
  c7_grid_layout 6 [jobj [], jobj []] 2 (by decide)
    (fun h => List.noConfusion h) rfl
    (by
      intro v hv
      rcases List.mem_cons.1 hv with h | hv2
      · exact ⟨[], h, fun w hw => Option.noConfusion hw⟩
      rcases List.mem_cons.1 hv2 with h | h
      · exact ⟨[], h, fun w hw => Option.noConfusion hw⟩
      · exact absurd h (List.not_mem_nil v))


/-! ### C5: text extraction from the API response -/

/-- C5 counterexample: the falsy body `\x7b\x7d` is answered with `None`,
not with its pretty-printed serialization. -/
theorem c5_falsy_body_counterexample :
    extract_text_from_api_response (jobj []) = none ∧
    jsonDumps (jobj []) = s2l "\x7b\x7d" ∧
    ¬ (none : Option (List Char)) = some (s2l "\x7b\x7d") :=
  ⟨rfl, rfl, fun h => Option.noConfusion h⟩

/-- C5 (amended): a falsy body gives `None`; a non-empty string body is
passed through; a truthy non-string body gives the value of the first
path in `checks` that resolves to a string with non-whitespace content, and
the pretty-printed serialization when no path does; a path is skipped — not
raised on — when a step fails, resolves to a non-string, or resolves to a
blank string. -/
theorem c5_extract_text_paths :
    (∀ data : JsonV, pyTruthy data = false →
        extract_text_from_api_response data = none) ∧
    (∀ s : List Char, pyTruthy (jstr s) = true →
        extract_text_from_api_response (jstr s) = some s) ∧
    (∀ (data : JsonV) (t : List Char), pyTruthy data = true →
        isStrV data = false → firstPathHit data checksList = some t →
        extract_text_from_api_response data = some t) ∧
    (∀ data : JsonV, pyTruthy data = true → isStrV data = false →
        firstPathHit data checksList = none →
        extract_text_from_api_response data = some (jsonDumps data)) ∧
    (∀ (data : JsonV) (p : List PathStep) (rest : List (List PathStep))
        (s : List Char), runPath data p = some (jstr s) →
        (pyStrip s).isEmpty = false →
        firstPathHit data (p :: rest) = some s) ∧
    (∀ (data : JsonV) (p : List PathStep) (rest : List (List PathStep))
        (v : JsonV), runPath data p = some v → isStrV v = false →
        firstPathHit data (p :: rest) = firstPathHit data rest) ∧
    (∀ (data : JsonV) (p : List PathStep) (rest : List (List PathStep)),
        runPath data p = none →
        firstPathHit data (p :: rest) = firstPathHit data rest) ∧
    (∀ (data : JsonV) (p : List PathStep) (rest : List (List PathStep))
        (s : List Char), runPath data p = some (jstr s) →
        (pyStrip s).isEmpty = true →
        firstPathHit data (p :: rest) = firstPathHit data rest) := by
  refine ⟨fun data h => ?_, fun s h => ?_, fun data t htr hstr hfp => ?_,
    fun data htr hstr hfp => ?_, fun data p rest s hr hstrip => ?_,
    fun data p rest v hr hnstr => ?_, fun data p rest hr => ?_,
    fun data p rest s hr hstrip => ?_⟩
  · unfold extract_text_from_api_response
    rw [if_pos (show ¬ pyTruthy data = true from fun hh =>
      Bool.noConfusion (h.symm.trans hh))]
  · unfold extract_text_from_api_response
    rw [if_neg (fun hh => hh h)]
  · unfold extract_text_from_api_response
    rw [if_neg (fun hh => hh htr)]
    cases data
    case jstr s => exact Bool.noConfusion hstr
    all_goals rw [hfp]
  · unfold extract_text_from_api_response
    rw [if_neg (fun hh => hh htr)]
    cases data
    case jstr s => exact Bool.noConfusion hstr
    all_goals rw [hfp]
  · rw [firstPathHit, hr]
    simp [hstrip]
  · rw [firstPathHit, hr]
    cases v
    case jstr s => exact Bool.noConfusion hnstr
    all_goals rfl
  · rw [firstPathHit, hr]
  · rw [firstPathHit, hr]
    simp [hstrip]

/-- C5 witness: the one-step `text` path on a concrete body. -/
theorem c5_extract_text_paths_witness :
    firstPathHit (jobj [(s2l "text", jstr (s2l "hi"))]) checksList =
      some (s2l "hi") ∧
    extract_text_from_api_response (jobj [(s2l "text", jstr (s2l "hi"))]) =
      some (s2l "hi") :=
  ⟨rfl, c5_extract_text_paths.2.2.1 (jobj [(s2l "text", jstr (s2l "hi"))])
    (s2l "hi") rfl rfl rfl⟩


/-! ### C10: the missing-fields response of the itinerary endpoint -/

/-- The membership probes of a mapping body all succeed, answering key
presence. -/
theorem mapM_contains_obj : ∀ (fs : List (List Char))
    (kvs : List (List Char × JsonV)),
    fs.mapM (fun f => pyContains (jobj kvs) f) =
      some (fs.map (fun f => (objLookup kvs f).isSome)) := by
  intro fs kvs
  induction fs with
  | nil => rfl
  | cons f fs ih => rw [List.mapM_cons, ih]; rfl

/-- The zip-with-probes filter computes the fields failing the probe. -/
theorem zip_filter_missing : ∀ (fs : List (List Char)) (g : List Char → Bool),
    (fs.zip (fs.map g)).filterMap
        (fun fh => if fh.2 then none else some fh.1) =
      fs.filter (fun f => ! g f) := by
  intro fs g
  induction fs with
  | nil => rfl
  | cons f fs ih =>
      rw [List.map_cons, List.zip_cons_cons, List.filterMap_cons,
        List.filter_cons]
      cases hg : g f
      · rw [ih]; rfl
      · rw [ih]; rfl

/-- C10 counterexample: the empty body is missing every required field, yet
the handler answers the generic `No data provided`, which does not list
them. -/
theorem c10_empty_body_counterexample :
    generate_itinerary true (jobj []) = .inl (400, s2l "No data provided") ∧
    ¬ (s2l "No data provided" = s2l "Missing required fields: " ++
        joinComma required_fields) :=
  ⟨rfl, by decide⟩

/-- C10 (amended): an uninitialized model answers 503 before any field
check; a falsy body answers 400 `No data provided` (not a field list); a
truthy mapping body missing at least one of `days`, `destination`, `budget`,
`travelers` answers 400 with exactly the missing fields joined by commas.
All three are `.inl` early returns: the model is never invoked. -/
theorem c10_missing_fields :
    (∀ data : JsonV, generate_itinerary false data =
        .inl (503, s2l "AI service not available")) ∧
    (∀ data : JsonV, pyTruthy data = false →
        generate_itinerary true data = .inl (400, s2l "No data provided")) ∧
    (∀ (kvs : List (List Char × JsonV)) (missing : List (List Char)),
        pyTruthy (jobj kvs) = true →
        missing = required_fields.filter
          (fun f => ! (objLookup kvs f).isSome) →
        missing ≠ [] →
        generate_itinerary true (jobj kvs) =
          .inl (400, s2l "Missing required fields: " ++ joinComma missing)) := by
  refine ⟨fun data => ?_, fun data h => ?_, fun kvs missing htr hmiss hne => ?_⟩
  · unfold generate_itinerary
    rw [if_pos (fun hh => Bool.noConfusion hh)]
  · unfold generate_itinerary
    rw [if_neg (fun hh => hh rfl),
      if_pos (show ¬ pyTruthy data = true from fun hh =>
        Bool.noConfusion (h.symm.trans hh))]
  · have h1 : (required_fields.zip (required_fields.map
        (fun f => (objLookup kvs f).isSome))).filterMap
          (fun fh => if fh.2 then none else some fh.1) = missing := by
      rw [zip_filter_missing]
      exact hmiss.symm
    unfold generate_itinerary
    rw [if_neg (fun hh => hh rfl), if_neg (fun hh => hh htr),
      mapM_contains_obj]
    show (if ¬ ((required_fields.zip (required_fields.map
            (fun f => (objLookup kvs f).isSome))).filterMap
            (fun fh => if fh.2 then none else some fh.1)).isEmpty then
          Sum.inl (400, s2l "Missing required fields: " ++
            joinComma ((required_fields.zip (required_fields.map
              (fun f => (objLookup kvs f).isSome))).filterMap
              (fun fh => if fh.2 then none else some fh.1)))
        else
          match buildGenPrompt (jobj kvs) with
          | some p => Sum.inr p
          | none =>
              Sum.inl (500,
                s2l "An error occurred while generating the itinerary")) = _
    rw [h1, if_pos (show ¬ missing.isEmpty = true from fun hh =>
      hne (List.isEmpty_iff.1 hh))]

/-- C10 witness: a body carrying only `days` is told the other three fields
are missing. -/
theorem c10_missing_fields_witness :
    generate_itinerary true (jobj [(s2l "days", jint 3)]) =
      .inl (400, s2l "Missing required fields: " ++
        joinComma [s2l "destination", s2l "budget", s2l "travelers"]) :=
  c10_missing_fields.2.2 [(s2l "days", jint 3)]
    [s2l "destination", s2l "budget", s2l "travelers"] rfl rfl
    (fun h => List.noConfusion h)


/-! ### C4: the day-bucket synthesis -/

/-- The distribution loop appends to bucket `b` exactly the names routed to
it. -/
theorem fillBuckets_getD : ∀ (visits : List JsonV)
    (daysN bucketSize i : Nat) (buckets : List (List (List Char))) (b : Nat),
    b < buckets.length → buckets.length = daysN →
    (fillBuckets daysN bucketSize i visits buckets).getD b [] =
      buckets.getD b [] ++ bucketContents daysN bucketSize i visits b := by
  intro visits
  induction visits with
  | nil =>
      intro daysN bucketSize i buckets b hb hlen
      rw [fillBuckets, bucketContents, List.append_nil]
  | cons v rest ih =>
      intro daysN bucketSize i buckets b hb hlen
      rw [fillBuckets, bucketContents]
      have hlen2 : (bucketPush buckets (min (daysN - 1) (i / bucketSize))
          (visitName v)).length = buckets.length := by
        rw [bucketPush, List.length_set]
      rw [ih daysN bucketSize (i + 1) _ b (by rw [hlen2]; exact hb)
        (by rw [hlen2]; exact hlen)]
      by_cases hbb : min (daysN - 1) (i / bucketSize) = b
      · rw [if_pos hbb, hbb, bucketPush, List.getD_eq_getElem?_getD,
          List.getElem?_set_self]
        · show (buckets.getD b [] ++ [visitName v]) ++ _ = _
          rw [List.append_assoc]
        · exact hb
      · rw [if_neg hbb, bucketPush, List.getD_eq_getElem?_getD,
          List.getElem?_set_ne hbb, ← List.getD_eq_getElem?_getD,
          List.nil_append]

/-- C4 (spec-modelled): the synthesizer builds one `DayPlan` per bucket,
numbered `1..days_n`, whose activities are exactly the location names of the
visits with `min(days_n - 1, i // bucket_size) = b` in index order, with the
placeholder for an empty bucket. -/
theorem c4_day_plan_buckets (daysN : Nat) (visits : List JsonV)
    (_hd : 1 ≤ daysN) :
    (synthesizeDayPlans daysN visits).length = daysN ∧
    ∀ (b : Nat) (hb : b < (synthesizeDayPlans daysN visits).length),
      ((synthesizeDayPlans daysN visits).get ⟨b, hb⟩).day_number = b + 1 ∧
      ((synthesizeDayPlans daysN visits).get ⟨b, hb⟩).activities =
        (if (bucketContents daysN ((visits.length + daysN - 1) / daysN)
              0 visits b).isEmpty
          then [s2l "Free time / local exploration"]
          else bucketContents daysN ((visits.length + daysN - 1) / daysN)
            0 visits b) := by
  have hlen : (synthesizeDayPlans daysN visits).length = daysN := by
    unfold synthesizeDayPlans
    rw [List.length_map, List.length_range]
  refine ⟨hlen, fun b hb => ?_⟩
  have hbd : b < daysN := hlen ▸ hb
  have hcont : (fillBuckets daysN ((visits.length + daysN - 1) / daysN) 0
      visits (List.replicate daysN [])).getD b [] =
      bucketContents daysN ((visits.length + daysN - 1) / daysN) 0 visits b := by
    rw [fillBuckets_getD visits daysN _ 0 _ b
      (by rw [List.length_replicate]; exact hbd) (List.length_replicate _ _)]
    rw [List.getD_eq_getElem?_getD, List.getElem?_replicate, if_pos hbd]
    rw [show (some ([] : List (List Char))).getD [] = [] from rfl,
      List.nil_append]
  have hget : (synthesizeDayPlans daysN visits).get ⟨b, hb⟩ =
      { day_number := b + 1
        activities :=
          if (bucketContents daysN ((visits.length + daysN - 1) / daysN)
              0 visits b).isEmpty
          then [s2l "Free time / local exploration"]
          else bucketContents daysN ((visits.length + daysN - 1) / daysN)
            0 visits b } := by
    rw [List.get_eq_getElem]
    unfold synthesizeDayPlans
    rw [List.getElem_map, List.getElem_range]
    show ({ day_number := b + 1
            activities :=
              if ((fillBuckets daysN ((visits.length + daysN - 1) / daysN) 0
                  visits (List.replicate daysN [])).getD b []).isEmpty
              then [s2l "Free time / local exploration"]
              else (fillBuckets daysN ((visits.length + daysN - 1) / daysN) 0
                visits (List.replicate daysN [])).getD b [] } : DayPlanM) = _
    rw [hcont]
  rw [hget]
  exact ⟨rfl, rfl⟩

/-- C4 witness: one visit over two days fills day 1 and leaves day 2 with
the placeholder. -/
theorem c4_day_plan_buckets_witness :
    (synthesizeDayPlans 2 [jobj [(s2l "location_name", jstr (s2l "A"))]]).length = 2 ∧
    ∀ (b : Nat)
      (hb : b < (synthesizeDayPlans 2
        [jobj [(s2l "location_name", jstr (s2l "A"))]]).length),
      ((synthesizeDayPlans 2
        [jobj [(s2l "location_name", jstr (s2l "A"))]]).get ⟨b, hb⟩).day_number =
        b + 1 ∧
      ((synthesizeDayPlans 2
        [jobj [(s2l "location_name", jstr (s2l "A"))]]).get ⟨b, hb⟩).activities =
        (if (bucketContents 2
              (([jobj [(s2l "location_name", jstr (s2l "A"))]].length + 2 - 1) / 2)
              0 [jobj [(s2l "location_name", jstr (s2l "A"))]] b).isEmpty
          then [s2l "Free time / local exploration"]
          else bucketContents 2
            (([jobj [(s2l "location_name", jstr (s2l "A"))]].length + 2 - 1) / 2)
            0 [jobj [(s2l "location_name", jstr (s2l "A"))]] b) :=
  c4_day_plan_buckets 2 [jobj [(s2l "location_name", jstr (s2l "A"))]] (by decide)


/-! ### C8: the sample fallback on an upstream failure -/

/-- C8: whatever error the upstream call raises, the handler still renders
the page: the flash list surfaces the warning built from the error text, the
raw response handed to the template is the static sample payload, and the
parsed object is the sample object. -/
theorem c8_sample_fallback (err : List Char)
    (estT : JsonV → JsonV → JsonV → JsonV → List Char) :
    planFlashes (plan 6 estT false false (s2l "Paris") [] (s2l "3") [] []
        (.error err)) =
      some [s2l "Gemini API error: " ++ err ++ s2l ". Showing sample response."] ∧
    (planPage (plan 6 estT false false (s2l "Paris") [] (s2l "3") [] []
        (.error err))).map RenderData.gemini_raw = some SAMPLE_GEMINI_RAW ∧
    (planPage (plan 6 estT false false (s2l "Paris") [] (s2l "3") [] []
        (.error err))).map RenderData.parsed = some sampleParsed := by
  have h1 : plan 6 estT false false (s2l "Paris") [] (s2l "3") [] []
        (.error err) =
      planCore 6 estT false false (s2l "Paris") [] (s2l "3") [] []
        [s2l "Gemini API error: " ++ err ++ s2l ". Showing sample response."]
        SAMPLE_GEMINI_RAW := by
    rw [plan, if_neg (fun h => Bool.noConfusion h)]
    rw [show pyStrip (s2l "Paris") = s2l "Paris" from rfl,
      show pyStrip (s2l "3") = s2l "3" from rfl,
      show pyStrip [] = ([] : List Char) from rfl]
  have h2 : planCore 6 estT false false (s2l "Paris") [] (s2l "3") [] []
        [s2l "Gemini API error: " ++ err ++ s2l ". Showing sample response."]
        SAMPLE_GEMINI_RAW =
      planParsed 6 estT false false (s2l "Paris") [] (s2l "3") [] []
        [s2l "Gemini API error: " ++ err ++ s2l ". Showing sample response."]
        SAMPLE_GEMINI_RAW sampleParsed := by
    rw [planCore, sample_extract,
      show (match some sampleParsed with
        | some v => pyOr v (jobj [])
        | none => jobj []) = sampleParsed from rfl]
  rw [h1, h2]
  exact ⟨rfl, rfl, rfl⟩

/-! ### C1: extraction of marker-delimited JSON -/

/-- The marker scan skips a prefix in which no start position carries the
start marker. -/
theorem markerFind_append_skip : ∀ (p r : List Char),
    (∀ i, i < p.length → SMl.isPrefixOf ((p ++ r).drop i) = false) →
    markerFind (p ++ r) = markerFind r := by
  intro p
  induction p with
  | nil => intro r _; rfl
  | cons c p2 ih =>
      intro r h
      show markerFind (c :: (p2 ++ r)) = _
      rw [markerFind]
      have h0 : SMl.isPrefixOf (c :: (p2 ++ r)) = false :=
        h 0 (Nat.succ_pos _)
      rw [show markerTryAt (c :: (p2 ++ r)) = none from by
        rw [markerTryAt, h0]; rfl]
      show markerFind (p2 ++ r) = markerFind r
      exact ih r (fun i hi => h (i + 1) (Nat.succ_lt_succ hi))

/-- Dropping whitespace runs past an all-whitespace stretch. -/
theorem dropWhile_append_all : ∀ (w y : List Char) (c : Char),
    w.all isPyWs = true → isPyWs c = false →
    (w ++ c :: y).dropWhile isPyWs = c :: y := by
  intro w
  induction w with
  | nil => intro y c _ hc; exact dropWhile_cons_neg _ _ _ hc
  | cons a w2 ih =>
      intro y c hall hc
      rw [List.all_cons, Bool.and_eq_true] at hall
      show (a :: (w2 ++ c :: y)).dropWhile isPyWs = _
      rw [List.dropWhile_cons, hall.1]
      show (w2 ++ c :: y).dropWhile isPyWs = c :: y
      exact ih y c hall.2 hc

/-- C1 counterexample: a valid JSON object whose string content contains
`\x7d ===JSON_END===` is embedded between the markers, yet extraction
returns nothing — the lazy group stops at the first brace followed by the
end marker, cutting the candidate short. -/
theorem c1_marker_counterexample :
    json_loads (s2l "\x7b\"a\": \"x \x7d ===JSON_END=== y\"\x7d") =
      some (jobj [(s2l "a", jstr (s2l "x \x7d ===JSON_END=== y"))]) ∧
    extract_json_from_text
        (s2l "===JSON_START===\n\x7b\"a\": \"x \x7d ===JSON_END=== y\"\x7d\n===JSON_END===") =
      none ∧
    (none : Option JsonV) ≠
      some (jobj [(s2l "a", jstr (s2l "x \x7d ===JSON_END=== y"))]) :=
  ⟨rfl, rfl, fun h => Option.noConfusion h⟩

/-- C1 (amended): a valid JSON object between the markers is extracted and
returned whenever the surrounding prose does not interfere: no position of
the leading prose carries the start marker, no brace inside the object is
itself followed (after whitespace) by the end marker, and the text survives
the fence strip and the outer trim. -/
theorem c1_marker_extraction (p1 ws1 b0 ws2 p2 t : List Char) (v : JsonV)
    (ht : t = p1 ++ (SMl ++ (ws1 ++ ('{' :: (b0 ++ ('}' :: (ws2 ++ (EMl ++ p2))))))))
    (hfence : fenceStrip t = t)
    (hstrip : pyStrip t = t)
    (hnosm : ∀ i, i < p1.length → SMl.isPrefixOf (t.drop i) = false)
    (hws1 : ws1.all isPyWs = true)
    (hws2 : ws2.all isPyWs = true)
    (hstop : noStopB ('{' :: b0) ('}' :: (ws2 ++ (EMl ++ p2))) = true)
    (hparse : json_loads (('{' :: b0) ++ ['}']) = some v) :
    extract_json_from_text t = some v := by
  subst ht
  have hne : (p1 ++ (SMl ++ (ws1 ++ ('{' :: (b0 ++ ('}' :: (ws2 ++
      (EMl ++ p2)))))))).isEmpty = false := by
    cases p1 <;> rfl
  rw [extract_json_from_text]
  rw [if_neg (by rw [hne]; simp)]
  rw [hfence, hstrip]
  have hm : markerFind (p1 ++ (SMl ++ (ws1 ++ ('{' :: (b0 ++ ('}' :: (ws2 ++
      (EMl ++ p2)))))))) = some (('{' :: b0) ++ ['}']) := by
    rw [markerFind_append_skip p1 _ hnosm]
    rw [show SMl ++ (ws1 ++ ('{' :: (b0 ++ ('}' :: (ws2 ++ (EMl ++ p2)))))) =
      Char.ofNat 61 :: (s2l "==JSON_START===" ++
        (ws1 ++ ('{' :: (b0 ++ ('}' :: (ws2 ++ (EMl ++ p2))))))) from rfl]
    apply markerFind_eq_of
    · show SMl.isPrefixOf (SMl ++
        (ws1 ++ ('{' :: (b0 ++ ('}' :: (ws2 ++ (EMl ++ p2))))))) = true
      exact isPrefixOf_append_self _ _
    · show ((SMl ++ (ws1 ++ ('{' :: (b0 ++ ('}' :: (ws2 ++
          (EMl ++ p2))))))).drop 16).dropWhile isPyWs = _
      rw [show (16 : Nat) = SMl.length from rfl, List.drop_left]
      exact dropWhile_append_all ws1 _ _ hws1 (by decide)
    · rw [candSearch]
      rw [show Char.ofNat 123 :: (b0 ++ ('}' :: (ws2 ++ (EMl ++ p2)))) =
        (Char.ofNat 123 :: b0) ++ ('}' :: (ws2 ++ (EMl ++ p2))) from rfl]
      rw [candAux_append _ _ 0 hstop]
      rw [candAux]
      rw [if_pos]
      · rw [Option.map_some']
        rw [show (Char.ofNat 123 :: b0) ++ ('}' :: (ws2 ++ (EMl ++ p2))) =
          ((Char.ofNat 123 :: b0) ++ ['}']) ++ (ws2 ++ (EMl ++ p2)) from by
            rw [List.append_assoc]; rfl]
        rw [show 0 + (Char.ofNat 123 :: b0).length + 1 =
          ((Char.ofNat 123 :: b0) ++ ['}']).length from by
            rw [List.length_append, List.length_cons,
              show (['}'] : List Char).length = 1 from rfl]
            omega]
        rw [List.take_left]
      · refine ⟨rfl, ?_⟩
        rw [show EMl ++ p2 =
          Char.ofNat 61 :: (s2l "==JSON_END===" ++ p2) from rfl]
        rw [dropWhile_append_all ws2 _ _ hws2 (by decide)]
        rw [show Char.ofNat 61 :: (s2l "==JSON_END===" ++ p2) =
          EMl ++ p2 from rfl]
        exact isPrefixOf_append_self _ _
  have htry : tryParseCand (('{' :: b0) ++ ['}']) = some v := by
    rw [tryParseCand, hparse]
  simp only [hm, htry]

/-- C1 witness: a concrete marked object with prose on both sides. -/
theorem c1_marker_extraction_witness :
    extract_json_from_text
        (s2l "prose ===JSON_START=== \x7b\"a\": 1\x7d ===JSON_END=== tail") =
      some (jobj [(s2l "a", jint 1)]) :=
  c1_marker_extraction (s2l "prose ") [' '] (s2l "\"a\": 1") [' ']
    (s2l " tail") _ (jobj [(s2l "a", jint 1)]) rfl rfl rfl (by decide)
    rfl rfl rfl rfl


end TravelPlanner
